import Mathlib

/-!
Verification of the agent-orchestrator core: a shallow embedding of the
run-report reader (`reporting.py`), the report normalizer
(`run_report_format.py`), the data model (`models.py`), the state store
(`state.py`), the git worktree manager (`git_worktree.py`) and the scheduler
(`orchestrator.py`), together with theorems settling the specification
claims about them.
-/

namespace AgentOrch

/-- JSON values as produced by `json.load`: null, booleans, numbers
(modelled as integers; no claim involves fractional values), strings,
arrays and objects with string keys. -/
inductive Json where
  | null : Json
  | bool (b : Bool) : Json
  | num (n : Int) : Json
  | str (s : String) : Json
  | arr (elems : List Json) : Json
  | obj (fields : List (String × Json)) : Json

/-- Key lookup on a JSON object field list: Python `payload.get(key)` /
`payload[key]` on the dict produced by `json.load`. -/
def jsonGet (fields : List (String × Json)) (key : String) : Option Json :=
  fields.lookup key

/-- Python truthiness `bool(x)` for values decoded from JSON. -/
def pyTruthy : Json → Bool
  | .null => false
  | .bool b => b
  | .num n => n ≠ 0
  | .str s => s ≠ ""
  | .arr xs => !xs.isEmpty
  | .obj kvs => !kvs.isEmpty

/-- The single-quote character, used by the Python `repr` of strings. -/
def squoteChar : Char := Char.ofNat 39

/-- The whitespace characters stripped by Python `str.strip()`. -/
def isPyWhitespace (c : Char) : Bool :=
  c = ' ' || c = '\t' || c = '\n' || c = '\r' || c = '\x0b' || c = '\x0c'

/-- Strip whitespace from both ends of a character list. -/
def trimChars (cs : List Char) : List Char :=
  ((cs.dropWhile isPyWhitespace).reverse.dropWhile isPyWhitespace).reverse

/-- Python `str.strip()`. -/
def pyStrip (s : String) : String := ⟨trimChars s.data⟩

/-- Python `str.lower()` (ASCII). -/
def pyLower (s : String) : String := ⟨s.data.map Char.toLower⟩

/-- Python `str.upper()` (ASCII). -/
def pyUpper (s : String) : String := ⟨s.data.map Char.toUpper⟩

/-- `s.startswith(pre)`. -/
def strStartsWith (pre s : String) : Bool := pre.data.isPrefixOf s.data

/-- `s.endswith(suf)`. -/
def strEndsWith (suf s : String) : Bool :=
  suf.data.reverse.isPrefixOf s.data.reverse

/-- Whether the string contains the character. -/
def strContainsChar (s : String) (c : Char) : Bool := s.data.any (fun a => a = c)

/-- Split a string on a separator character (Python `s.split(sep)` /
`Path` component splitting). -/
def splitOnChar (sep : Char) (s : String) : List String :=
  (s.data.foldr
    (fun c acc =>
      if c = sep then [] :: acc
      else
        match acc with
        | g :: rest => (c :: g) :: rest
        | [] => [[c]])
    [[]]).map String.mk

/-- Escape one character inside a Python string `repr` with the given
quote character. -/
def pyEscapeChar (quote : Char) (c : Char) : String :=
  if c = '\\' then "\\\\"
  else if c = quote then "\\" ++ c.toString
  else if c = '\n' then "\\n"
  else if c = '\r' then "\\r"
  else if c = '\t' then "\\t"
  else c.toString

/-- Python `repr` of a string: single-quoted unless the string contains a
single quote and no double quote. -/
def pyReprStr (s : String) : String :=
  let quote :=
    if strContainsChar s squoteChar && !strContainsChar s '"' then '"' else squoteChar
  quote.toString ++ String.join (s.data.map (pyEscapeChar quote)) ++ quote.toString

mutual

/-- Python `repr` of a value decoded from JSON. -/
def pyRepr : Json → String
  | .null => "None"
  | .bool b => if b then "True" else "False"
  | .num n => toString n
  | .str s => pyReprStr s
  | .arr xs => "[" ++ pyReprList xs ++ "]"
  | .obj kvs => "\x7b" ++ pyReprFields kvs ++ "\x7d"

/-- `repr` of a list of JSON values, comma-separated. -/
def pyReprList : List Json → String
  | [] => ""
  | [x] => pyRepr x
  | x :: xs => pyRepr x ++ ", " ++ pyReprList xs

/-- `repr` of the fields of a JSON object, comma-separated. -/
def pyReprFields : List (String × Json) → String
  | [] => ""
  | [kv] => pyReprStr kv.1 ++ ": " ++ pyRepr kv.2
  | kv :: kvs => pyReprStr kv.1 ++ ": " ++ pyRepr kv.2 ++ ", " ++ pyReprFields kvs

end

/-- Python `str(x)` for a value decoded from JSON: identity on strings,
`repr`-like rendering otherwise (`str(None) = "None"`, `str(True) = "True"`,
numbers via their decimal form, containers via `repr`). -/
def pyStr : Json → String
  | .str s => s
  | .null => "None"
  | .bool b => if b then "True" else "False"
  | .num n => toString n
  | .arr xs => pyRepr (.arr xs)
  | .obj kvs => pyRepr (.obj kvs)

/-- Python `list(x)` on a value decoded from JSON.  Lists are copied,
strings iterate into their characters, dicts iterate into their keys;
`None`, booleans and numbers are not iterable and raise `TypeError`
(modelled as `Except.error`). -/
def pyList : Json → Except Unit (List Json)
  | .null => .error ()
  | .bool _ => .error ()
  | .num _ => .error ()
  | .str s => .ok (s.data.map fun c => .str c.toString)
  | .arr xs => .ok xs
  | .obj kvs => .ok (kvs.map fun kv => .str kv.1)

/-- Whether a JSON-decoded value is hashable in Python (usable as a dict
key): everything except lists and dicts. -/
def pyHashable : Json → Bool
  | .arr _ => false
  | .obj _ => false
  | _ => true

/-- Python `==` on hashable JSON-decoded scalars, as used for dict-key
identity (`True == 1`, `False == 0`). -/
def pyKeyEq : Json → Json → Bool
  | .null, .null => true
  | .bool a, .bool b => a == b
  | .bool a, .num n => (if a then (1 : Int) else 0) == n
  | .num n, .bool a => n == (if a then (1 : Int) else 0)
  | .num a, .num b => a == b
  | .str a, .str b => a == b
  | _, _ => false

/-- Insert a key/value pair as Python dict assignment does: replace the
value of an equal key in place, otherwise append. -/
def pyDictInsert (acc : List (Json × Json)) (k v : Json) : List (Json × Json) :=
  if acc.any (fun kv => pyKeyEq kv.1 k) then
    acc.map (fun kv => if pyKeyEq kv.1 k then (kv.1, v) else kv)
  else
    acc ++ [(k, v)]

/-- Decode one element of an iterable passed to Python `dict(...)` into a
key/value pair: a two-element sequence whose first element is hashable.
Anything else raises (modelled as `Except.error`). -/
def pyPairOfElem : Json → Except Unit (Json × Json)
  | .arr [k, v] => if pyHashable k then .ok (k, v) else .error ()
  | .str s =>
      match s.data with
      | [c1, c2] => .ok (.str c1.toString, .str c2.toString)
      | _ => .error ()
  | _ => .error ()

/-- Python `dict(x)` on a value decoded from JSON: dicts are copied;
lists must consist of key/value pairs; strings iterate into one-character
strings, which are not pairs (so only the empty string succeeds); `None`,
booleans and numbers raise `TypeError`. -/
def pyDict : Json → Except Unit (List (Json × Json))
  | .obj kvs => .ok (kvs.map fun kv => ((.str kv.1 : Json), kv.2))
  | .arr xs => do
      let pairs ← xs.mapM pyPairOfElem
      pure (pairs.foldl (fun acc kv => pyDictInsert acc kv.1 kv.2) [])
  | .str s => if s.isEmpty then .ok [] else .error ()
  | _ => .error ()

/-! ## Run reports: `models.RunReport` and `reporting.RunReportReader` -/

/-- `models.RunReport`: the structured report built by
`RunReportReader.read`.  List and dict fields hold whatever JSON values the
payload carried (the Python dataclass does not coerce elements). -/
structure RunReport where
  schema : String
  run_id : String
  step_id : String
  agent : String
  status : String
  started_at : String
  ended_at : String
  artifacts : List Json
  metrics : List (Json × Json)
  logs : List Json
  next_suggested_steps : List Json
  gate_failure : Bool
  raw : List (String × Json)

/-- Outcomes of `RunReportReader.read` other than returning a report.
All constructors except `uncaughtTypeError` correspond to a raised
`RunReportError`; `uncaughtTypeError` is a Python `TypeError` escaping from
the `list(...)`/`dict(...)` coercions, which `read` does not catch. -/
inductive ReadErr where
  | notFound : ReadErr
  | invalidJson : ReadErr
  | notObject : ReadErr
  | schemaFailed : ReadErr
  | missingFields (fields : List String) : ReadErr
  | uncaughtTypeError : ReadErr
deriving DecidableEq

/-- Whether a `read` failure is a classified `RunReportError` (as opposed
to an uncaught `TypeError`). -/
def ReadErr.classified : ReadErr → Bool
  | .uncaughtTypeError => false
  | _ => true

/-- The required report keys checked by `RunReportReader.read`. -/
def requiredFields : List String :=
  ["schema", "run_id", "step_id", "agent", "status", "started_at", "ended_at"]

/-- `max(1, int(retry_attempts))` from the `RunReportReader` constructor. -/
def effectiveRetryAttempts (n : Int) : Nat := (max 1 n).toNat

/-- The constructor default for `retry_attempts`. -/
def defaultRetryAttempts : Int := 3

/-- The parse loop of `read`: attempts `1..n` each re-read the file (whose
content may change between attempts, hence the attempt-indexed outcome);
the first successful `json.load` wins, and `none` means every attempt
raised `JSONDecodeError`. -/
def firstParse (contents : Nat → Except Unit Json) : Nat → Nat → Option Json
  | 0, _ => none
  | n + 1, attempt =>
      match contents attempt with
      | .ok payload => some payload
      | .error _ => firstParse contents n (attempt + 1)

/-- Reader configuration: whether a schema validator is installed, the
(abstracted) validator verdict, and the configured retry budget. -/
structure ReaderConfig where
  hasValidator : Bool
  validatorAccepts : Json → Bool
  retry_attempts : Int

/-- `RunReportReader.read`: reject a missing file; retry `json.load` up to
the configured number of attempts; reject a non-object payload, a payload
the configured validator refuses, and a payload missing required keys;
otherwise coerce the fields into a `RunReport` (during which a non-iterable
`artifacts`/`logs`/`next_suggested_steps` or a non-dict-coercible `metrics`
raises an uncaught `TypeError`). -/
def readReport (cfg : ReaderConfig) (fileExists : Bool)
    (contents : Nat → Except Unit Json) : Except ReadErr RunReport :=
  if !fileExists then .error .notFound
  else
    match firstParse contents (effectiveRetryAttempts cfg.retry_attempts) 1 with
    | none => .error .invalidJson
    | some payload =>
      match payload with
      | .obj fields =>
          if cfg.hasValidator && !cfg.validatorAccepts (.obj fields) then
            .error .schemaFailed
          else
            let missing := requiredFields.filter (fun f => (jsonGet fields f).isNone)
            if !missing.isEmpty then .error (.missingFields missing)
            else
              match pyList ((jsonGet fields "artifacts").getD (.arr [])) with
              | .error _ => .error .uncaughtTypeError
              | .ok artifacts =>
                match pyDict ((jsonGet fields "metrics").getD (.obj [])) with
                | .error _ => .error .uncaughtTypeError
                | .ok metrics =>
                  match pyList ((jsonGet fields "logs").getD (.arr [])) with
                  | .error _ => .error .uncaughtTypeError
                  | .ok logs =>
                    match pyList ((jsonGet fields "next_suggested_steps").getD (.arr [])) with
                    | .error _ => .error .uncaughtTypeError
                    | .ok nss =>
                      .ok {
                        schema := pyStr ((jsonGet fields "schema").getD .null)
                        run_id := pyStr ((jsonGet fields "run_id").getD .null)
                        step_id := pyStr ((jsonGet fields "step_id").getD .null)
                        agent := pyStr ((jsonGet fields "agent").getD .null)
                        status := pyUpper (pyStr ((jsonGet fields "status").getD .null))
                        started_at := pyStr ((jsonGet fields "started_at").getD .null)
                        ended_at := pyStr ((jsonGet fields "ended_at").getD .null)
                        artifacts := artifacts
                        metrics := metrics
                        logs := logs
                        next_suggested_steps := nss
                        gate_failure := pyTruthy ((jsonGet fields "gate_failure").getD (.bool false))
                        raw := fields
                      }
      | _ => .error .notObject

/-! ## `run_report_format.py`: placeholder detection and normalization -/

/-- `_PLACEHOLDER_ARTIFACT_PHRASES`. -/
def placeholderArtifactPhrases : List String :=
  [ "list of created file paths",
    "replace with actual artifact",
    "relative path to each created file",
    "relative path to the artifact you produced",
    "replace with relative path for each artifact",
    "replace with the relative path to each artifact" ]

/-- `_PLACEHOLDER_LOG_PHRASES`. -/
def placeholderLogPhrases : List String :=
  [ "summary of what you accomplished",
    "replace with actual log entry",
    "concise summary of work performed",
    "concise bullet summarizing work",
    "replace with a concise summary",
    "replace with a short summary of what you accomplished" ]

/-- `_PLACEHOLDER_ENDED_AT_PHRASES`. -/
def placeholderEndedAtPhrases : List String :=
  [ "replace with utc timestamp when you finish",
    "insert completion timestamp" ]

/-- Whether `needle` occurs as a contiguous sublist of the second list. -/
def charsIsSub (needle : List Char) : List Char → Bool
  | [] => needle.isEmpty
  | c :: rest => needle.isPrefixOf (c :: rest) || charsIsSub needle rest

/-- Python `phrase in joined`: substring test. -/
def pySubstring (phrase joined : String) : Bool :=
  charsIsSub phrase.data joined.data

/-- `_matches_placeholder`: with a nonempty value list, some nonempty
stripped/lowercased phrase either equals one of the values or occurs as a
substring of the space-joined values. -/
def matchesPlaceholder (values : List String) (phrases : List String) : Bool :=
  if values.isEmpty then false
  else
    let joined := String.intercalate " " values
    phrases.any fun phrase0 =>
      let phrase := pyLower (pyStrip phrase0)
      if phrase.isEmpty then false
      else values.any (fun v => v == phrase) || pySubstring phrase joined

/-- The normalisation applied to the entries of `artifacts`/`logs` before
placeholder matching: drop entries that strip to empty, strip and
lowercase the rest. -/
def normalisedEntries (values : List String) : List String :=
  (values.filter (fun v => !(pyStrip v).isEmpty)).map (fun v => pyLower (pyStrip v))

/-- `contains_placeholder_artifacts`. -/
def containsPlaceholderArtifacts (values : List String) : Bool :=
  matchesPlaceholder (normalisedEntries values) placeholderArtifactPhrases

/-- `contains_placeholder_logs`. -/
def containsPlaceholderLogs (values : List String) : Bool :=
  matchesPlaceholder (normalisedEntries values) placeholderLogPhrases

/-- `ended_at_looks_placeholder`. -/
def endedAtLooksPlaceholder (value : String) : Bool :=
  matchesPlaceholder [pyLower (pyStrip value)] placeholderEndedAtPhrases

/-- `_normalise_string_list`: `None` becomes the empty list, lists iterate
their items, any other value is wrapped into a one-element list; each item
is rendered with `str` and stripped, and empty renderings are dropped.
(When the payload key is absent, `normalised.get(...)` also yields `None`,
hence the `Option` input.) -/
def normaliseStringList (value : Option Json) : List String :=
  let items : List Json :=
    match value with
    | none => []
    | some .null => []
    | some (.arr xs) => xs
    | some other => [other]
  items.filterMap fun item =>
    let text := pyStrip (pyStr item)
    if text.isEmpty then none else some text

/-- The `PlaceholderContentError` cases raised by
`normalize_run_report_payload`, in the order the checks run. -/
inductive PlaceholderErr where
  | placeholderArtifacts : PlaceholderErr
  | placeholderLogs : PlaceholderErr
  | emptyLogs : PlaceholderErr
  | emptyEndedAt : PlaceholderErr
  | placeholderEndedAt : PlaceholderErr
deriving DecidableEq

/-- Python dict assignment `d[key] = value`: replace in place when the key
exists, append otherwise. -/
def setField (fields : List (String × Json)) (key : String) (value : Json) :
    List (String × Json) :=
  if fields.any (fun kv => kv.1 == key) then
    fields.map (fun kv => if kv.1 == key then (kv.1, value) else kv)
  else
    fields ++ [(key, value)]

/-- `normalize_run_report_payload`: normalise `artifacts`/`logs` into
string lists and `ended_at` into a stripped string, reject placeholder
artifacts, placeholder logs, an empty `logs` list, an empty `ended_at` and
a placeholder `ended_at` (each a classified `PlaceholderContentError`),
and otherwise return the payload with the three fields replaced by their
normalised forms. -/
def normalizeRunReportPayload (payload : List (String × Json)) :
    Except PlaceholderErr (List (String × Json)) :=
  let artifacts := normaliseStringList (jsonGet payload "artifacts")
  let logs := normaliseStringList (jsonGet payload "logs")
  let endedAtValue := pyStrip (pyStr ((jsonGet payload "ended_at").getD (.str "")))
  if containsPlaceholderArtifacts artifacts then .error .placeholderArtifacts
  else if containsPlaceholderLogs logs then .error .placeholderLogs
  else if logs.isEmpty then .error .emptyLogs
  else if endedAtValue.isEmpty then .error .emptyEndedAt
  else if endedAtLooksPlaceholder endedAtValue then .error .placeholderEndedAt
  else
    .ok (setField
          (setField
            (setField payload "artifacts" (.arr (artifacts.map Json.str)))
            "logs" (.arr (logs.map Json.str)))
          "ended_at" (.str endedAtValue))

/-! ## `state.py`: the run-state store -/

/-- Primitive filesystem operations performed while saving state.
`truncate` models `path.open("w")` (the target file becomes empty the
moment it is opened); `write` appends data to an open file; `rename`
atomically replaces `dst` with `src`. -/
inductive FsOp where
  | truncate (path : String) : FsOp
  | write (path : String) (data : String) : FsOp
  | rename (src dst : String) : FsOp

/-- A filesystem snapshot: each path maps to its content, or `none` when
absent. -/
def FsState := String → Option String

/-- Apply one filesystem operation. -/
def applyFsOp (fs : FsState) : FsOp → FsState
  | .truncate p => fun q => if q = p then some "" else fs q
  | .write p data => fun q => if q = p then some ((fs p).getD "" ++ data) else fs q
  | .rename src dst => fun q =>
      if q = dst then fs src else if q = src then none else fs q

/-- Apply a sequence of filesystem operations. -/
def applyFsOps (fs : FsState) : List FsOp → FsState
  | [] => fs
  | op :: ops => applyFsOps (applyFsOp fs op) ops

/-- `RunStatePersister.save`: `with self._path.open("w") as f:
json.dump(state.to_dict(), f)` — truncate the configured path in place,
then write the serialized document into it. -/
def saveOps (path : String) (doc : String) : List FsOp :=
  [.truncate path, .write path doc]

/-- Modelled from the spec: the atomic save the spec requires of
`RunStatePersister.save` ("write to a temporary sibling and rename"),
which is absent from `state.py`.  The document is fully written to a
sibling temporary file and renamed over the configured path. -/
def specAtomicSaveOps (path tmpPath : String) (doc : String) : List FsOp :=
  [.truncate tmpPath, .write tmpPath doc, .rename tmpPath path]

/-- Crash semantics: the contents a reader can observe at `path` if the
process dies at an arbitrary point during the operation sequence — one
state per prefix of the sequence. -/
def crashContents (fs : FsState) (ops : List FsOp) (path : String) : List (Option String) :=
  (List.range (ops.length + 1)).map fun k => applyFsOps fs (ops.take k) path

/-! ## `git_worktree.py`: the worktree manager -/

/-- Characters accepted by the branch-name pattern `^[a-zA-Z0-9/_-]+$`. -/
def isBranchChar (c : Char) : Bool :=
  c.isAlpha || c.isDigit || c = '/' || c = '_' || c = '-'

/-- Python `re.match(r'^[a-zA-Z0-9/_-]+$', branch)`: one or more branch
characters spanning the whole string, where `$` also matches just before
one trailing newline. -/
def reMatchBranch (branch : String) : Bool :=
  let cs := branch.data
  let core := if strEndsWith "\n" branch then cs.dropLast else cs
  !core.isEmpty && core.all isBranchChar

/-- `GitWorktreeManager._validate_branch_name`: `True` when the branch
name passes both the pattern check and the forbidden-pattern check
(`..` anywhere, leading `-`). -/
def validBranchName (branch : String) : Bool :=
  reMatchBranch branch && !pySubstring ".." branch && !strStartsWith "-" branch

/-- The git invocations `create` can issue. -/
inductive GitCmd where
  | worktreeAdd (branch : String) (path : List String) (baseRef : String) : GitCmd

/-- Errors raised by `GitWorktreeManager.create`. -/
inductive WorktreeErr where
  | invalidBranch : WorktreeErr
  | forbiddenPattern : WorktreeErr
  | outsideParent : WorktreeErr
  | alreadyExists : WorktreeErr
  | gitFailed : WorktreeErr
deriving DecidableEq

/-- Handle returned by a successful `create`. -/
structure WorktreeHandle where
  root_repo : List String
  path : List String
  branch : String
  base_ref : String
  run_id : String
  created_branch : Bool

/-- The flattened directory component `branch_name.replace("/", "__")`. -/
def flattenBranch (branch : String) : String :=
  String.join (branch.data.map fun c => if c = '/' then "__" else c.toString)

/-- `worktree_path.relative_to(repo_root.parent)` succeeds exactly when the
parent's components are a prefix of the destination's components (both
paths resolved, modelled as component lists). -/
def withinParent (repoRoot dest : List String) : Bool :=
  repoRoot.dropLast.isPrefixOf dest

/-- `GitWorktreeManager.create`: validate the branch name, resolve the
destination under the worktree root, check it stays inside the parent of
the repository root, and only then invoke `git worktree add`.  Returns the
outcome together with the list of git commands actually issued;
`gitOutcome` abstracts the git subprocess result (with the "already
exists" message classified separately, as the code does). -/
def worktreeCreate (repoRoot worktreeRoot : List String) (branch : String)
    (runId : String) (baseRef : String)
    (gitOutcome : Except WorktreeErr Unit) :
    Except WorktreeErr WorktreeHandle × List GitCmd :=
  if !reMatchBranch branch then (.error .invalidBranch, [])
  else if pySubstring ".." branch || strStartsWith "-" branch then
    (.error .forbiddenPattern, [])
  else
    let worktreePath := worktreeRoot ++ [flattenBranch branch]
    if !withinParent repoRoot worktreePath then (.error .outsideParent, [])
    else
      let cmds := [GitCmd.worktreeAdd branch worktreePath baseRef]
      match gitOutcome with
      | .error e => (.error e, cmds)
      | .ok _ =>
          (.ok {
            root_repo := repoRoot
            path := worktreePath
            branch := branch
            base_ref := baseRef
            run_id := runId
            created_branch := true
          }, cmds)

/-! ## `models.py`: statuses, steps, runtimes, run state -/

/-- `models.StepStatus`. -/
inductive StepStatus where
  | pending | running | waitingOnHuman | completed | failed | skipped
deriving DecidableEq

/-- The `.value` string of each `StepStatus` member (equal to its name). -/
def StepStatus.value : StepStatus → String
  | .pending => "PENDING"
  | .running => "RUNNING"
  | .waitingOnHuman => "WAITING_ON_HUMAN"
  | .completed => "COMPLETED"
  | .failed => "FAILED"
  | .skipped => "SKIPPED"

/-- `StepStatus[name]`: member lookup by name, `none` modelling the
`KeyError` for unknown names. -/
def statusOfName (s : String) : Option StepStatus :=
  if s = "PENDING" then some .pending
  else if s = "RUNNING" then some .running
  else if s = "WAITING_ON_HUMAN" then some .waitingOnHuman
  else if s = "COMPLETED" then some .completed
  else if s = "FAILED" then some .failed
  else if s = "SKIPPED" then some .skipped
  else none

/-- Whether a status counts as terminal-successful for dependency
purposes (`{COMPLETED, SKIPPED}`). -/
def terminalSuccess : StepStatus → Bool
  | .completed => true
  | .skipped => true
  | _ => false

/-- `models.LoopConfig`. -/
structure LoopConfig where
  items : Option (List Json) := none
  items_from_step : Option String := none
  items_from_artifact : Option String := none
  max_iterations : Option Int := none
  until_condition : Option String := none
  item_var : String := "item"
  index_var : String := "index"

/-- `models.Step` (static workflow node). -/
structure Step where
  id : String
  agent : String := ""
  prompt : String := ""
  needs : List String := []
  next_on_success : List String := []
  gates : List String := []
  loop_back_to : Option String := none
  human_in_the_loop : Bool := false
  metadata : List (String × String) := []
  loop : Option LoopConfig := none
  model : Option String := none

/-- `models.StepRuntime` (mutable per-step execution record), with the
dataclass defaults. -/
structure StepRuntime where
  status : StepStatus := .pending
  attempts : Nat := 0
  iteration_count : Nat := 0
  report_path : Option String := none
  started_at : Option String := none
  ended_at : Option String := none
  last_error : Option String := none
  artifacts : List Json := []
  metrics : List (Json × Json) := []
  logs : List Json := []
  manual_input_path : Option String := none
  blocked_by_loop : Option String := none
  notified_failure : Bool := false
  notified_human_input : Bool := false
  loop_index : Nat := 0
  loop_items : Option (List Json) := none
  loop_completed : Bool := false

/-- A fresh `StepRuntime()` with every field at its default. -/
def freshRuntime : StepRuntime := {}

/-- The dictionary produced by `StepRuntime.to_dict`, with each key's
serialized value type. -/
structure StepRuntimeDict where
  status : String
  attempts : Nat
  iteration_count : Nat
  report_path : Option String
  started_at : Option String
  ended_at : Option String
  last_error : Option String
  artifacts : List Json
  metrics : List (Json × Json)
  logs : List Json
  manual_input_path : Option String
  blocked_by_loop : Option String
  notified_failure : Bool
  notified_human_input : Bool
  loop_index : Nat
  loop_items : Option (List Json)
  loop_completed : Bool

/-- `StepRuntime.to_dict`. -/
def StepRuntime.toDict (rt : StepRuntime) : StepRuntimeDict :=
  { status := rt.status.value
    attempts := rt.attempts
    iteration_count := rt.iteration_count
    report_path := rt.report_path
    started_at := rt.started_at
    ended_at := rt.ended_at
    last_error := rt.last_error
    artifacts := rt.artifacts
    metrics := rt.metrics
    logs := rt.logs
    manual_input_path := rt.manual_input_path
    blocked_by_loop := rt.blocked_by_loop
    notified_failure := rt.notified_failure
    notified_human_input := rt.notified_human_input
    loop_index := rt.loop_index
    loop_items := rt.loop_items
    loop_completed := rt.loop_completed }

/-- The per-step reconstruction inside `Orchestrator._load_state_from_dict`:
`StepStatus[step_data["status"]]` (a `KeyError`, modelled as `none`, for an
unknown name) and field-by-field reads with the `.get` defaults. -/
def stepRuntimeOfDict (d : StepRuntimeDict) : Option StepRuntime :=
  (statusOfName d.status).map fun st =>
    { status := st
      attempts := d.attempts
      iteration_count := d.iteration_count
      report_path := d.report_path
      started_at := d.started_at
      ended_at := d.ended_at
      last_error := d.last_error
      artifacts := d.artifacts
      metrics := d.metrics
      logs := d.logs
      manual_input_path := d.manual_input_path
      blocked_by_loop := d.blocked_by_loop
      notified_failure := d.notified_failure
      notified_human_input := d.notified_human_input
      loop_index := d.loop_index
      loop_items := d.loop_items
      loop_completed := d.loop_completed }

/-- `models.RunState` (paths modelled as strings). -/
structure RunState where
  run_id : String
  workflow_name : String
  repo_dir : String
  reports_dir : String
  manual_inputs_dir : String
  created_at : String
  steps : List (String × StepRuntime)

/-- The dictionary produced by `RunState.to_dict`. -/
structure RunStateDict where
  run_id : String
  workflow_name : String
  repo_dir : String
  reports_dir : String
  manual_inputs_dir : String
  created_at : String
  updated_at : String
  steps : List (String × StepRuntimeDict)

/-- `RunState.to_dict` (the `updated_at` stamp `utc_now()` is passed in as
`now`). -/
def RunState.toDict (st : RunState) (now : String) : RunStateDict :=
  { run_id := st.run_id
    workflow_name := st.workflow_name
    repo_dir := st.repo_dir
    reports_dir := st.reports_dir
    manual_inputs_dir := st.manual_inputs_dir
    created_at := st.created_at
    updated_at := now
    steps := st.steps.map fun p => (p.1, p.2.toDict) }

/-- `Orchestrator._load_state_from_dict`: rebuild a `RunState` from a
persisted dictionary, iterating the workflow's step ids; a step id absent
from the persisted map gets a fresh runtime, and an invalid persisted
status raises (modelled as `none`). -/
def loadStateFromDict (wfStepIds : List String) (d : RunStateDict) : Option RunState := do
  let steps ← wfStepIds.mapM fun sid =>
    match d.steps.lookup sid with
    | some sd => (stepRuntimeOfDict sd).map fun rt => (sid, rt)
    | none => some (sid, freshRuntime)
  pure
    { run_id := d.run_id
      workflow_name := d.workflow_name
      repo_dir := d.repo_dir
      reports_dir := d.reports_dir
      manual_inputs_dir := d.manual_inputs_dir
      created_at := d.created_at
      steps := steps }

/-! ## `orchestrator.py`: scheduler ingredients -/

/-- `max(1, max_attempts)` from `Orchestrator.__init__`. -/
def effectiveMaxAttempts (n : Int) : Int := max 1 n

/-- `max(1, max_iterations)` from `Orchestrator.__init__`. -/
def effectiveMaxIterations (n : Int) : Int := max 1 n

/-- `Orchestrator._has_terminal_failure` for one runtime: `FAILED` with
`attempts >= max_attempts`. -/
def terminalFailure (maxAttempts : Int) (rt : StepRuntime) : Bool :=
  rt.status = .failed && (maxAttempts ≤ (rt.attempts : Int))

/-- Python `a or b` on an optional string (`None` and `""` are falsy). -/
def pyOrStr (v : Option String) (dflt : String) : String :=
  match v with
  | some s => if s.isEmpty then dflt else s
  | none => dflt

/-- The scheduler's mutable view: the per-step runtimes, the
active-process map (as the list of step ids holding a live launch), the
ids collected into `to_remove` but not yet finalized, and the log handles
closed so far. -/
structure OrchState where
  steps : String → StepRuntime
  active : List String
  toFinalize : List String
  closedLogs : List String

/-- Point update of one step's runtime. -/
def OrchState.setRt (st : OrchState) (sid : String) (rt : StepRuntime) : OrchState :=
  { st with steps := fun x => if x = sid then rt else st.steps x }

/-- The state constructed for a fresh run: every step gets
`StepRuntime()`, no live process, nothing pending finalization. -/
def initialState : OrchState :=
  { steps := fun _ => freshRuntime, active := [], toFinalize := [], closedLogs := [] }

/-- The `needs` part of `Orchestrator._dependencies_satisfied`: every
dependency's status in `{COMPLETED, SKIPPED}`. -/
def needsSatisfied (stepsFn : String → StepRuntime) (step : Step) : Bool :=
  step.needs.all fun dep => terminalSuccess (stepsFn dep).status

/-- `Orchestrator._dependencies_satisfied`, including its side effect:
when the dependencies are satisfied and `blocked_by_loop` points at a
terminal-successful step, the flag is cleared (the runtimes map is assumed
to cover loop-back targets, as the loader guarantees). Returns the verdict
and the (possibly updated) runtime of the step. -/
def dependenciesSatisfiedStep (stepsFn : String → StepRuntime) (step : Step) :
    Bool × StepRuntime :=
  let rt := stepsFn step.id
  if !needsSatisfied stepsFn step then (false, rt)
  else
    match rt.blocked_by_loop with
    | none => (true, rt)
    | some target =>
        if terminalSuccess (stepsFn target).status then
          (true, { rt with blocked_by_loop := none })
        else (false, rt)

/-- `Orchestrator._should_continue_loop`. -/
def shouldContinueLoop (step : Step) (rt : StepRuntime) : Bool :=
  match step.loop, rt.loop_items with
  | none, _ => false
  | some _, none => false
  | some lc, some items =>
      if items.isEmpty then false
      else if rt.loop_completed then false
      else if items.length ≤ rt.loop_index then false
      else
        match lc.max_iterations with
        | some m => if m ≤ (rt.loop_index : Int) then false else true
        | none => true

/-- Resolve a possibly-relative path against the repository directory
(`Path(p)` / `repo_dir / p`). -/
def resolveRepoPath (repoDir p : String) : String :=
  if strStartsWith "/" p then p else repoDir ++ "/" ++ p

/-- `Orchestrator._initialize_loop_items`.  `fs` abstracts
`json.load(path.open())`: `none` covers a missing, unreadable or
non-JSON file (each of which makes the method return `False`).  The
`Except.error` outcome models an uncaught exception: a non-string artifact
path, or an `items` key holding a non-array (which the code would carry
into `len()` and indexing).  Otherwise returns the readiness verdict and
the updated runtime. -/
def initializeLoopItems (fs : String → Option Json) (repoDir : String)
    (stepsFn : String → StepRuntime) (step : Step) (rt : StepRuntime) :
    Except Unit (Bool × StepRuntime) :=
  match step.loop with
  | none => .ok (true, rt)
  | some lc =>
    if rt.loop_items.isSome then .ok (true, rt)
    else
      match lc.items with
      | some items => .ok (true, { rt with loop_items := some items, loop_index := 0 })
      | none =>
        match lc.items_from_step with
        | some depId =>
            if (stepsFn depId).status ≠ .completed then .ok (false, rt)
            else
              match (stepsFn depId).artifacts with
              | [] => .ok (false, rt)
              | a :: _ =>
                match a with
                | .str s =>
                    match fs (resolveRepoPath repoDir s) with
                    | none => .ok (false, rt)
                    | some (.arr xs) =>
                        .ok (true, { rt with loop_items := some xs, loop_index := 0 })
                    | some (.obj kvs) =>
                        match jsonGet kvs "items" with
                        | some (.arr xs) =>
                            .ok (true, { rt with loop_items := some xs, loop_index := 0 })
                        | some _ => .error ()
                        | none => .ok (false, rt)
                    | some _ => .ok (false, rt)
                | _ => .error ()
        | none =>
          match lc.items_from_artifact with
          | some p =>
              match fs (resolveRepoPath repoDir p) with
              | none => .ok (false, rt)
              | some (.arr xs) =>
                  .ok (true, { rt with loop_items := some xs, loop_index := 0 })
              | some (.obj kvs) =>
                  match jsonGet kvs "items" with
                  | some (.arr xs) =>
                      .ok (true, { rt with loop_items := some xs, loop_index := 0 })
                  | some _ => .error ()
                  | none => .ok (false, rt)
              | some _ => .ok (false, rt)
          | none => .ok (false, rt)

/-- JSON serialization `json.dumps` (escaping the characters relevant to
this development). -/
def jsonEscapeChar (c : Char) : String :=
  if c = '\\' then "\\\\"
  else if c = '"' then "\\\""
  else if c = '\n' then "\\n"
  else if c = '\r' then "\\r"
  else if c = '\t' then "\\t"
  else c.toString

mutual

/-- `json.dumps` of a JSON value. -/
def jsonDumps : Json → String
  | .null => "null"
  | .bool b => if b then "true" else "false"
  | .num n => toString n
  | .str s => "\"" ++ String.join (s.data.map jsonEscapeChar) ++ "\""
  | .arr xs => "[" ++ jsonDumpsList xs ++ "]"
  | .obj kvs => "\x7b" ++ jsonDumpsFields kvs ++ "\x7d"

/-- `json.dumps` of a list of values, comma-separated. -/
def jsonDumpsList : List Json → String
  | [] => ""
  | [x] => jsonDumps x
  | x :: xs => jsonDumps x ++ ", " ++ jsonDumpsList xs

/-- `json.dumps` of object fields, comma-separated. -/
def jsonDumpsFields : List (String × Json) → String
  | [] => ""
  | [kv] => "\"" ++ kv.1 ++ "\": " ++ jsonDumps kv.2
  | kv :: kvs => "\"" ++ kv.1 ++ "\": " ++ jsonDumps kv.2 ++ ", " ++ jsonDumpsFields kvs

end

/-- `Orchestrator._get_loop_context_env`: the two per-iteration loop
variables, or nothing when no loop items are active or the index is out of
range. -/
def getLoopContextEnv (step : Step) (rt : StepRuntime) : List (String × String) :=
  match step.loop, rt.loop_items with
  | some lc, some items =>
      if items.isEmpty then []
      else
        match items.get? rt.loop_index with
        | none => []
        | some item =>
            [("LOOP_" ++ pyUpper lc.index_var, toString rt.loop_index),
             ("LOOP_" ++ pyUpper lc.item_var, jsonDumps item)]
  | _, _ => []

/-- Dict assignment on an environment map. -/
def envSet (env : List (String × String)) (k v : String) : List (String × String) :=
  if env.any (fun kv => kv.1 == k) then
    env.map (fun kv => if kv.1 == k then (k, v) else kv)
  else env ++ [(k, v)]

/-- `env.setdefault(k, v)`. -/
def envSetDefault (env : List (String × String)) (k v : String) :
    List (String × String) :=
  if env.any (fun kv => kv.1 == k) then env else env ++ [(k, v)]

/-- The file-name component of a path (`Path(p).name`). -/
def pathFileName (p : String) : String :=
  (splitOnChar '/' p).getLastD p

/-- `Path(name).suffix`: the final extension including the dot, empty when
the name has no dot or only a leading one. -/
def pathSuffix (name : String) : String :=
  let parts := splitOnChar '.' name
  if parts.length ≤ 1 then ""
  else if (parts.dropLast.all String.isEmpty) then ""
  else "." ++ parts.getLastD ""

/-- `Orchestrator._collect_dependency_artifacts`: for each dependency with
artifacts, export `DEP_<ID>_ARTIFACT_<i>` per artifact and a comma-joined
`DEP_<ID>_ARTIFACTS`, resolving relative paths against the repository;
also `setdefault` the three `ISSUE_MARKDOWN_*` variables from the first
artifact named `gh_issue_*.md`.  A non-string artifact raises (`none`). -/
def collectDependencyArtifacts (repoDir : String) (stepsFn : String → StepRuntime)
    (step : Step) : Option (List (String × String)) := do
  let folded ← step.needs.foldlM
    (fun (acc : List (String × String) × Option String) depId => do
      let depRt := stepsFn depId
      if depRt.artifacts.isEmpty then
        pure acc
      else do
        let paths ← depRt.artifacts.mapM fun a =>
          match a with
          | .str s => some (resolveRepoPath repoDir s)
          | _ => none
        let indexed := (List.range paths.length).zip paths
        let env1 := indexed.foldl
          (fun env ip =>
            envSet env ("DEP_" ++ pyUpper depId ++ "_ARTIFACT_" ++ toString ip.1) ip.2)
          acc.1
        let issue1 :=
          match acc.2 with
          | some i => some i
          | none =>
              paths.find? fun p =>
                strStartsWith "gh_issue_" (pathFileName p)
                  && pathSuffix (pathFileName p) == ".md"
        let env2 := envSet env1 ("DEP_" ++ pyUpper depId ++ "_ARTIFACTS")
          (String.intercalate "," paths)
        pure (env2, issue1))
    ([], none)
  let env := folded.1
  match folded.2 with
  | none => pure env
  | some issuePath =>
      pure (envSetDefault
              (envSetDefault
                (envSetDefault env "ISSUE_MARKDOWN_PATH" issuePath)
                "ISSUE_MARKDOWN_DIR" (String.intercalate "/" ((splitOnChar '/' issuePath).dropLast)))
              "ISSUE_MARKDOWN_FILENAME" (pathFileName issuePath))

/-! ## `orchestrator.py`: the launch phase -/

/-- Scheduler construction parameters (after `__init__` normalisation). -/
structure OrchParams where
  wf : List (String × Step)
  maxAttempts : Int
  maxIterations : Int
  pauseForHuman : Bool
  repoDir : String
  runId : String
  reportsDir : String
  manualDir : String

/-- The environment one launch-phase step body interacts with: gate
verdicts, loop-artifact file contents, whether the prompt path resolves,
the runner outcome, and the `utc_now()` stamp. -/
structure LaunchEnv where
  gateOpen : String → String → Bool
  artifactJson : String → Option Json
  promptResolvable : Bool
  launchOk : Bool
  launchErrorMsg : String
  now : String

/-- How one iteration of the `_launch_ready_steps` loop ended for a step.
`crashed` marks an exception escaping the phase (unresolvable prompt, or a
non-string artifact path); `launched` carries the `extra_env` exported to
the child. -/
inductive LaunchOutcome where
  | notPending | alreadyActive | depsUnsatisfied | gatesClosed | loopNotReady
  | loopCompleted | crashed | launchFailed
  | launched (extraEnv : List (String × String))

/-- One iteration of the `for step_id, step in workflow.steps` loop inside
`Orchestrator._launch_ready_steps`, for step `sid`/`step`: skip non-pending
or already-active steps, check dependencies (clearing a satisfied
`blocked_by_loop`), gates and loop readiness, complete an exhausted loop
in place, and otherwise mark the step `RUNNING`, bump `attempts`, stamp
`started_at`, assign the report path and launch — recording the launch in
the active map on success and marking `FAILED` on a launch exception. -/
def launchPhaseStep (P : OrchParams) (lenv : LaunchEnv) (st : OrchState)
    (sid : String) (step : Step) : OrchState × LaunchOutcome :=
  let rt := st.steps sid
  if rt.status ≠ .pending then (st, .notPending)
  else if st.active.contains sid then (st, .alreadyActive)
  else
    let depCheck := dependenciesSatisfiedStep st.steps step
    if !depCheck.1 then (st, .depsUnsatisfied)
    else
      let rt1 := depCheck.2
      let st1 := st.setRt sid rt1
      if !step.gates.all (lenv.gateOpen sid) then (st1, .gatesClosed)
      else
        match initializeLoopItems lenv.artifactJson P.repoDir st1.steps step rt1 with
        | .error _ => (st1, .crashed)
        | .ok (ready, rt2) =>
          let st2 := st1.setRt sid rt2
          if step.loop.isSome && !ready then (st2, .loopNotReady)
          else if step.loop.isSome && !shouldContinueLoop step rt2 then
            (st2.setRt sid
              { rt2 with status := .completed, loop_completed := true,
                         ended_at := some lenv.now },
             .loopCompleted)
          else
            let reportPath := P.reportsDir ++ "/" ++ P.runId ++ "__" ++ step.id ++ ".json"
            let manualPath :=
              if step.human_in_the_loop && P.pauseForHuman then
                some (P.manualDir ++ "/" ++ P.runId ++ "__" ++ sid ++ ".json")
              else none
            if !lenv.promptResolvable then (st2, .crashed)
            else
              match collectDependencyArtifacts P.repoDir st2.steps step with
              | none => (st2, .crashed)
              | some depEnv =>
                let loopEnv := getLoopContextEnv step rt2
                let extraEnv := loopEnv.foldl (fun e kv => envSet e kv.1 kv.2) depEnv
                let rt3 :=
                  { rt2 with
                      notified_failure := false
                      notified_human_input := false
                      status := .running
                      attempts := rt2.attempts + 1
                      started_at := some lenv.now
                      report_path := some reportPath
                      manual_input_path := manualPath }
                if lenv.launchOk then
                  ({ st2.setRt sid rt3 with active := sid :: st2.active },
                   .launched extraEnv)
                else
                  (st2.setRt sid
                    { rt3 with status := .failed,
                               last_error := some lenv.launchErrorMsg,
                               ended_at := some lenv.now },
                   .launchFailed)

/-! ## `orchestrator.py`: loop-back -/

/-- One pass of the saturation loop inside `_handle_loop_back` /
`_reset_steps_from`: add every workflow step, not yet collected, with a
dependency in the collected set. -/
def growOnce (wf : List (String × Step)) (cur : List String) : List String :=
  cur ++ (wf.filter
    (fun p => !cur.contains p.1 && p.2.needs.any (fun d => cur.contains d))).map Prod.fst

/-- Iterate `growOnce`. -/
def growN (wf : List (String × Step)) : Nat → List String → List String
  | 0, cur => cur
  | n + 1, cur => growN wf n (growOnce wf cur)

/-- The `to_reset` set computed by `_handle_loop_back`'s
`while changed` loop: the saturation of `{to_step}` under "depends on a
collected step" (the loop runs until no pass changes the set; `wf.length`
passes always suffice, as proved below). -/
def resetTargets (wf : List (String × Step)) (t : String) : List String :=
  growN wf wf.length [t]

/-- `Orchestrator._handle_loop_back`: on a gate-failure report from
`fromStep` with `loop_back_to = toStep`, bump the source's
`iteration_count`, requeue the source to `PENDING` with its per-attempt
fields cleared (`blocked_by_loop = toStep` when the source differs from
the target), and replace every step of `resetTargets` other than the
source with a fresh runtime, preserving the target's `iteration_count`.
An unknown target leaves the state unchanged. -/
def handleLoopBack (wf : List (String × Step)) (st : OrchState)
    (fromStep toStep : String) : OrchState :=
  if (wf.lookup toStep).isNone then st
  else
    let fromRt := st.steps fromStep
    let fromRt1 :=
      { fromRt with
          iteration_count := fromRt.iteration_count + 1
          status := .pending
          report_path := none
          started_at := none
          ended_at := none
          last_error := none
          manual_input_path := none
          logs := []
          metrics := []
          artifacts := []
          blocked_by_loop := if fromStep ≠ toStep then some toStep else none }
    let st1 := st.setRt fromStep fromRt1
    let targets := resetTargets wf toStep
    { st1 with
        steps := fun x =>
          if !(x == fromStep) && targets.contains x then
            if x == toStep then
              { freshRuntime with iteration_count := (st1.steps x).iteration_count }
            else freshRuntime
          else st1.steps x }

/-! ## `orchestrator.py`: the collect phase -/

/-- The environment one collect-phase step body interacts with: whether
the report file exists, the reader outcome on it, whether the child
process has exited (and its return code), whether notification dispatch
succeeds, and the `utc_now()` stamp. -/
structure CollectEnv where
  reportExists : Bool
  readResult : Except String RunReport
  processFinished : Bool
  returnCode : Int
  notifyOk : Bool
  now : String

/-- `Orchestrator._notify_failure`: skipped when already notified or not
`FAILED`; otherwise the `notified_failure` flag is set iff the sink call
does not raise. -/
def applyNotifyFailure (notifyOk : Bool) (rt : StepRuntime) : StepRuntime :=
  if rt.notified_failure || rt.status ≠ .failed then rt
  else if notifyOk then { rt with notified_failure := true } else rt

/-- `Orchestrator._notify_human_input`: skipped when already notified or
not `WAITING_ON_HUMAN`; otherwise the flag is set iff the sink call does
not raise. -/
def applyNotifyHuman (notifyOk : Bool) (rt : StepRuntime) : StepRuntime :=
  if rt.notified_human_input || rt.status ≠ .waitingOnHuman then rt
  else if notifyOk then { rt with notified_human_input := true } else rt

/-- `", ".join(report.logs[-3:])` with the "Agent reported failure"
fallback for an empty log list. -/
def failureMessage (logs : List Json) : String :=
  if logs.isEmpty then "Agent reported failure"
  else String.intercalate ", " ((logs.drop (logs.length - 3)).map pyStr)

/-- Mark a step id for finalization (`to_remove.append`). -/
def OrchState.markFinalize (st : OrchState) (sid : String) : OrchState :=
  { st with toFinalize := sid :: st.toFinalize }

/-- One iteration of the `for step_id, launch in active` loop inside
`Orchestrator._collect_reports`, for step `sid`/`step`: wait while an
unreadable report may still be being written; fail the step on an
unreadable report after exit or on exit without a report; otherwise ingest
the report — loop-back on `gate_failure` with a `loop_back_to` (bounded by
`max_iterations`), advance a live loop, enter `WAITING_ON_HUMAN`, complete,
or fail — and mark the step for removal from the active map. -/
def collectIngest (P : OrchParams) (cenv : CollectEnv) (st : OrchState)
    (sid : String) (step : Step) (report : RunReport) (rt1 : StepRuntime) :
    OrchState :=
  if report.status = "COMPLETED" then
    if step.loop.isSome && shouldContinueLoop step rt1 then
      (st.setRt sid
        { rt1 with loop_index := rt1.loop_index + 1, status := .pending,
                   report_path := none, started_at := none, ended_at := none,
                   manual_input_path := none }).markFinalize sid
    else if rt1.manual_input_path.isSome && P.pauseForHuman then
      (st.setRt sid
        (applyNotifyHuman cenv.notifyOk
          { rt1 with status := .waitingOnHuman,
                     notified_human_input := false })).markFinalize sid
    else
      (st.setRt sid
        { rt1 with status := .completed, notified_human_input := false,
                   loop_completed := step.loop.isSome || rt1.loop_completed
        }).markFinalize sid
  else
    (st.setRt sid
      (applyNotifyFailure cenv.notifyOk
        { rt1 with status := .failed,
                   last_error := some (failureMessage report.logs)
        })).markFinalize sid

/-- One iteration of the `for step_id, launch in active` loop inside
`Orchestrator._collect_reports`, for step `sid`/`step`: wait while an
unreadable report may still be being written; fail the step on an
unreadable report after exit or on exit without a report; otherwise ingest
the report (via `collectIngest`, with the loop-back branch first) and mark
the step for removal from the active map. -/
def collectPhaseStep (P : OrchParams) (cenv : CollectEnv) (st : OrchState)
    (sid : String) (step : Step) : OrchState :=
  let rt := st.steps sid
  if cenv.reportExists then
    match cenv.readResult with
    | .error msg =>
        if !cenv.processFinished then st
        else
          let rt1 := applyNotifyFailure cenv.notifyOk
            { rt with last_error := some msg, status := .failed,
                      ended_at := some cenv.now }
          (st.setRt sid rt1).markFinalize sid
    | .ok report =>
        let rt1 :=
          { rt with ended_at := some report.ended_at, artifacts := report.artifacts,
                    metrics := report.metrics, logs := report.logs }
        if report.gate_failure then
          match step.loop_back_to with
          | some target =>
              if (rt1.iteration_count : Int) < P.maxIterations then
                (handleLoopBack P.wf (st.setRt sid rt1) sid target).markFinalize sid
              else
                let rt2 := applyNotifyFailure cenv.notifyOk
                  { rt1 with status := .failed,
                             last_error := some ("Gate failure after "
                               ++ toString rt1.iteration_count
                               ++ " iterations - max iterations reached") }
                ((st.setRt sid rt2).markFinalize sid)
          | none =>
              collectIngest P cenv st sid step report rt1
        else
          collectIngest P cenv st sid step report rt1
  else if cenv.processFinished then
    let rt1 := applyNotifyFailure cenv.notifyOk
      { rt with status := .failed, ended_at := some cenv.now,
                last_error := some ("Agent process exited with code "
                  ++ toString cenv.returnCode ++ " without writing a run report") }
    (st.setRt sid rt1).markFinalize sid
  else st

/-- The `to_remove` post-processing of `_collect_reports` for one step:
pop it from the active map, close its log handle, and — when `FAILED` with
attempts below `max_attempts` — reset it to `PENDING` for a retry,
clearing the timing/report fields and both notification flags while
keeping `last_error` (defaulted to `"retry scheduled"` when falsy). -/
def finalizeStep (maxAttempts : Int) (st : OrchState) (sid : String) : OrchState :=
  let rt := st.steps sid
  let rt1 :=
    if rt.status = .failed ∧ (rt.attempts : Int) < maxAttempts then
      { rt with
          status := .pending
          last_error := some (pyOrStr rt.last_error "retry scheduled")
          report_path := none
          started_at := none
          ended_at := none
          notified_failure := false
          notified_human_input := false }
    else rt
  { steps := fun x => if x = sid then rt1 else st.steps x
    active := st.active.erase sid
    toFinalize := st.toFinalize.erase sid
    closedLogs := sid :: st.closedLogs }

/-- One iteration of `Orchestrator._check_manual_steps` for a step: a
`WAITING_ON_HUMAN` step whose manual-input file exists becomes
`COMPLETED` (stamping `ended_at` if empty) and clears the human-input
notification flag. -/
def checkManualStep (P : OrchParams) (manualFileExists : Bool) (now : String)
    (st : OrchState) (sid : String) : OrchState :=
  if !P.pauseForHuman then st
  else
    let rt := st.steps sid
    if rt.status ≠ .waitingOnHuman then st
    else
      match rt.manual_input_path with
      | none => st
      | some _ =>
          if manualFileExists then
            st.setRt sid
              { rt with status := .completed, ended_at := some (pyOrStr rt.ended_at now),
                        notified_human_input := false }
          else st

/-! ## The scheduler as a transition system -/

/-- One scheduler transition: a launch-phase iteration for a workflow
step, a collect-phase iteration for an active not-yet-finalized step, the
finalization of a collected step, or a manual-input check.  Environments
(`LaunchEnv`/`CollectEnv`, file existence, timestamps) are arbitrary. -/
inductive OrchTrans (P : OrchParams) : OrchState → OrchState → Prop where
  | launch (st : OrchState) (sid : String) (step : Step) (lenv : LaunchEnv) :
      P.wf.lookup sid = some step →
      step.id = sid →
      OrchTrans P st (launchPhaseStep P lenv st sid step).1
  | collect (st : OrchState) (sid : String) (step : Step) (cenv : CollectEnv) :
      P.wf.lookup sid = some step →
      st.active.contains sid = true →
      st.toFinalize.contains sid = false →
      OrchTrans P st (collectPhaseStep P cenv st sid step)
  | finalize (st : OrchState) (sid : String) :
      st.toFinalize.contains sid = true →
      OrchTrans P st (finalizeStep P.maxAttempts st sid)
  | manual (st : OrchState) (sid : String) (manualFileExists : Bool) (now : String) :
      OrchTrans P st (checkManualStep P manualFileExists now st sid)

/-- States reachable by the scheduler from a fresh run's initial state. -/
inductive Reachable (P : OrchParams) : OrchState → Prop where
  | init : Reachable P initialState
  | step {st st1 : OrchState} : Reachable P st → OrchTrans P st st1 → Reachable P st1

/-! ## Statement-level predicates -/

/-- Transitive dependency: `NeedsTrans wf x t` says workflow step `x`
reaches `t` through one or more `needs` edges. -/
inductive NeedsTrans (wf : List (String × Step)) : String → String → Prop where
  | direct {x t : String} {s : Step} :
      (x, s) ∈ wf → t ∈ s.needs → NeedsTrans wf x t
  | indirect {x d t : String} {s : Step} :
      (x, s) ∈ wf → d ∈ s.needs → NeedsTrans wf d t → NeedsTrans wf x t

/-- The scheduling invariant of the claim: every `RUNNING` workflow step
has all of its dependencies in `{COMPLETED, SKIPPED}` (equivalently, none
in `{PENDING, RUNNING, FAILED, WAITING_ON_HUMAN}`). -/
def DepsOfRunningTerminal (wf : List (String × Step)) (stepsFn : String → StepRuntime) : Prop :=
  ∀ sid step, wf.lookup sid = some step → (stepsFn sid).status = .running →
    ∀ d ∈ step.needs, terminalSuccess (stepsFn d).status = true

/-- Auxiliary inductive invariant: a step in the active map that is not
yet marked for finalization is `RUNNING` or `PENDING` (the latter when a
loop-back reset it while its stale process lives), and the finalization
list only holds active steps. -/
def ActiveStatusInv (st : OrchState) : Prop :=
  (∀ sid, sid ∈ st.active → sid ∉ st.toFinalize →
    (st.steps sid).status = .running ∨ (st.steps sid).status = .pending) ∧
  (∀ sid, sid ∈ st.toFinalize → sid ∈ st.active) ∧
  st.active.Nodup ∧ st.toFinalize.Nodup

/-- Closure of a candidate reset set under reverse dependency edges: every
workflow step with a dependency already in the set is itself in the set. -/
def ClosedUnder (wf : List (String × Step)) (cur : List String) : Prop :=
  ∀ p ∈ wf, (∃ d ∈ p.2.needs, d ∈ cur) → p.1 ∈ cur

/-- The number of workflow-key occurrences captured by a candidate set
(the measure showing the saturation loop terminates). -/
def keysIn (wf : List (String × Step)) (cur : List String) : Nat :=
  (wf.map Prod.fst).countP (fun k => cur.contains k)

/-- The conjunction of the scheduler invariants proved inductive over
`OrchTrans`. -/
def GoodState (P : OrchParams) (st : OrchState) : Prop :=
  DepsOfRunningTerminal P.wf st.steps ∧ ActiveStatusInv st

/-- Whether an optional payload field coerces under Python `list(...)`
without a `TypeError` (absent fields default to `[]`). -/
def listCoercible (v : Option Json) : Bool :=
  match v with
  | none => true
  | some x => match pyList x with | .ok _ => true | .error _ => false

/-- Whether an optional payload field coerces under Python `dict(...)`
without raising (absent fields default to `{}`). -/
def dictCoercible (v : Option Json) : Bool :=
  match v with
  | none => true
  | some x => match pyDict x with | .ok _ => true | .error _ => false

/-- A reader with no schema validator and the default retry budget. -/
def defaultReaderConfig : ReaderConfig :=
  { hasValidator := false, validatorAccepts := fun _ => true,
    retry_attempts := defaultRetryAttempts }

/-- The payload of `test_reporting.py`'s
`test_run_report_reader_rejects_placeholder_artifacts`: every required key
present and filled, `artifacts` still holding the placeholder words. -/
def placeholderReportPayload : List (String × Json) :=
  [ ("schema", .str "run_report@v0"),
    ("run_id", .str "test_run"),
    ("step_id", .str "step_one"),
    ("agent", .str "tester"),
    ("status", .str "COMPLETED"),
    ("started_at", .str "2025-01-01T00:00:00.000000Z"),
    ("ended_at", .str "2025-01-01T00:10:00.000000Z"),
    ("artifacts", .arr [.str "list", .str "of", .str "created", .str "file", .str "paths"]),
    ("metrics", .obj []),
    ("logs", .arr [.str "Documented findings"]),
    ("next_suggested_steps", .arr []) ]

/-- A payload with all seven required keys present but `artifacts` bound
to JSON `null`, so `list(payload.get("artifacts", []))` raises an uncaught
`TypeError` inside `read`. -/
def nullArtifactsPayload : List (String × Json) :=
  [ ("schema", .str "run_report@v0"),
    ("run_id", .str "r"),
    ("step_id", .str "s"),
    ("agent", .str "a"),
    ("status", .str "completed"),
    ("started_at", .str "t0"),
    ("ended_at", .str "t1"),
    ("artifacts", .null) ]

/-- The three-step chain used against the loop-back frame claim:
`B` needs `A` and loops back to `A`; `C` needs `B` (so `C` is downstream
of the loop-back source `B`). -/
def chainWorkflow : List (String × Step) :=
  [ ("A", { id := "A" }),
    ("B", { id := "B", needs := ["A"], loop_back_to := some "A" }),
    ("C", { id := "C", needs := ["B"] }) ]

/-- A runtime map for `chainWorkflow` in which `C` has completed with two
recorded attempts, about to be hit by `B`'s loop-back. -/
def chainRuntimes : String → StepRuntime := fun sid =>
  if sid = "A" then { freshRuntime with status := .completed, attempts := 1, iteration_count := 3 }
  else if sid = "B" then { freshRuntime with status := .running, attempts := 1 }
  else if sid = "C" then { freshRuntime with status := .completed, attempts := 2 }
  else freshRuntime

/-- The scheduler state holding `chainRuntimes` with `B`'s process active. -/
def chainState : OrchState :=
  { steps := chainRuntimes, active := ["B"], toFinalize := [], closedLogs := [] }

/-- A filesystem holding a previously saved (readable) state document at
the configured path. -/
def c4Fs0 : FsState :=
  fun q => if q = "run_state.json" then some "\x7b\x7d" else none

/-- A representative serialized run-state document. -/
def c4Doc : String := "\x7b\"run_id\": \"ab12cd34\"\x7d"

/-- A collected step that failed with one attempt left and a recorded
error, feeding the retry-reset of `_collect_reports`. -/
def c3State : OrchState :=
  { steps := fun sid =>
      if sid = "s" then
        { freshRuntime with status := .failed, attempts := 1,
                            last_error := some "boom",
                            started_at := some "t0", ended_at := some "t1",
                            report_path := some "r.json", notified_failure := true }
      else freshRuntime
    active := ["s"], toFinalize := ["s"], closedLogs := [] }

/-- A step with a literal empty loop item list. -/
def c8Step : Step := { id := "L", loop := some { items := some ([] : List Json) } }

/-- Orchestrator parameters for the empty-loop scenario. -/
def c8Params : OrchParams :=
  { wf := [("L", c8Step)], maxAttempts := 2, maxIterations := 4,
    pauseForHuman := false, repoDir := "/repo", runId := "r1",
    reportsDir := "/repo/.agents/runs/r1/reports",
    manualDir := "/repo/.agents/runs/r1/manual_inputs" }

/-- A launch environment with open gates and a working runner. -/
def c8Lenv : LaunchEnv :=
  { gateOpen := fun _ _ => true, artifactJson := fun _ => none,
    promptResolvable := true, launchOk := true, launchErrorMsg := "", now := "t1" }

/-- The runtime after materializing the empty literal list. -/
def c8Rt2 : StepRuntime := { freshRuntime with loop_items := some [], loop_index := 0 }

/-! # Theorems -/

/-- `StepStatus[...]` lookup inverts `.value`. -/
theorem statusOfName_value (s : StepStatus) : statusOfName s.value = some s := by
  cases s <;> rfl

/-- Rebuilding a runtime from its own `to_dict` output is the identity. -/
theorem stepRuntimeOfDict_toDict (rt : StepRuntime) :
    stepRuntimeOfDict rt.toDict = some rt := by
  unfold stepRuntimeOfDict StepRuntime.toDict
  rw [statusOfName_value]
  rfl

/-- Lookup through the serialized steps map factors through `to_dict`. -/
theorem lookup_map_toDict (l : List (String × StepRuntime)) (sid : String) :
    (l.map fun p => (p.1, p.2.toDict)).lookup sid
      = (l.lookup sid).map StepRuntime.toDict := by
  induction l with
  | nil => rfl
  | cons hd tl ih =>
      obtain ⟨k, v⟩ := hd
      simp only [List.map_cons, List.lookup]
      cases h : (sid == k) with
      | true => rfl
      | false => exact ih

/-- Looking up a key of a self-keyed map. -/
theorem lookup_map_self (wfIds : List String) (g : String → StepRuntime)
    (sid : String) (h : sid ∈ wfIds) :
    (wfIds.map fun s => (s, g s)).lookup sid = some (g sid) := by
  induction wfIds with
  | nil => cases h
  | cons hd tl ih =>
      simp only [List.map_cons, List.lookup]
      cases hb : (sid == hd) with
      | true =>
          have : sid = hd := by simpa using hb
          subst this
          rfl
      | false =>
          have hne : sid ≠ hd := by simpa using hb
          rcases List.mem_cons.mp h with h1 | h1
          · exact absurd h1 hne
          · exact ih h1

/-- The per-step reconstruction loop of `_load_state_from_dict` on a
serialized map recovers each runtime present and defaults absent ones. -/
theorem loadSteps_mapM (wfIds : List String) (steps : List (String × StepRuntime)) :
    (wfIds.mapM fun sid =>
      match (steps.map fun p => (p.1, p.2.toDict)).lookup sid with
      | some sd => (stepRuntimeOfDict sd).map fun rt => (sid, rt)
      | none => some (sid, freshRuntime))
    = some (wfIds.map fun sid => (sid, (steps.lookup sid).getD freshRuntime)) := by
  rw [← List.mapM'_eq_mapM]
  induction wfIds with
  | nil => rfl
  | cons hd tl ih =>
      simp only [List.mapM', List.map_cons]
      rw [lookup_map_toDict, ih]
      cases hl : steps.lookup hd with
      | none => simp [hl]
      | some rt => simp [hl, stepRuntimeOfDict_toDict]

/-- C7: serializing a `RunState` with `to_dict` and reconstructing it with
`_load_state_from_dict` yields a state with the identical `run_id` and,
for every workflow step covered by the original map, identical `status`,
`attempts`, `iteration_count`, `artifacts` and `logs`. -/
theorem c7_state_roundtrip (wfIds : List String) (st : RunState) (now : String)
    (hcover : ∀ sid ∈ wfIds, (st.steps.lookup sid).isSome = true) :
    ∃ st1, loadStateFromDict wfIds (st.toDict now) = some st1 ∧
      st1.run_id = st.run_id ∧
      ∀ sid ∈ wfIds, ∃ rt rt1,
        st.steps.lookup sid = some rt ∧ st1.steps.lookup sid = some rt1 ∧
        rt1.status = rt.status ∧ rt1.attempts = rt.attempts ∧
        rt1.iteration_count = rt.iteration_count ∧
        rt1.artifacts = rt.artifacts ∧ rt1.logs = rt.logs := by
  refine ⟨{ run_id := st.run_id, workflow_name := st.workflow_name,
            repo_dir := st.repo_dir, reports_dir := st.reports_dir,
            manual_inputs_dir := st.manual_inputs_dir, created_at := st.created_at,
            steps := wfIds.map fun sid =>
              (sid, (st.steps.lookup sid).getD freshRuntime) }, ?_, rfl, ?_⟩
  · unfold loadStateFromDict RunState.toDict
    rw [loadSteps_mapM]
    rfl
  · intro sid hs
    obtain ⟨rt, hrt⟩ := Option.isSome_iff_exists.mp (hcover sid hs)
    refine ⟨rt, (st.steps.lookup sid).getD freshRuntime, hrt, ?_, ?_, ?_, ?_, ?_, ?_⟩
    · exact lookup_map_self wfIds _ sid hs
    all_goals simp [hrt]

/-- Witness for C7 on a one-step state with a non-trivial runtime. -/
theorem c7_witness :
    ∃ st1, loadStateFromDict ["a"]
        (RunState.toDict
          { run_id := "r1", workflow_name := "wf", repo_dir := "/repo",
            reports_dir := "/repo/reports", manual_inputs_dir := "/repo/manual",
            created_at := "t0",
            steps := [("a",
              { freshRuntime with status := .completed, attempts := 2,
                                  iteration_count := 1,
                                  artifacts := [.str "out/a.txt"],
                                  logs := [.str "did work"] })] } "t1")
      = some st1 ∧
      st1.run_id = "r1" ∧
      ∀ sid ∈ ["a"], ∃ rt rt1,
        List.lookup sid [("a",
          { freshRuntime with status := .completed, attempts := 2,
                              iteration_count := 1,
                              artifacts := [Json.str "out/a.txt"],
                              logs := [Json.str "did work"] })] = some rt ∧
        st1.steps.lookup sid = some rt1 ∧
        rt1.status = rt.status ∧ rt1.attempts = rt.attempts ∧
        rt1.iteration_count = rt.iteration_count ∧
        rt1.artifacts = rt.artifacts ∧ rt1.logs = rt.logs := by
  have h := c7_state_roundtrip ["a"]
    { run_id := "r1", workflow_name := "wf", repo_dir := "/repo",
      reports_dir := "/repo/reports", manual_inputs_dir := "/repo/manual",
      created_at := "t0",
      steps := [("a",
        { freshRuntime with status := .completed, attempts := 2,
                            iteration_count := 1,
                            artifacts := [.str "out/a.txt"],
                            logs := [.str "did work"] })] } "t1"
    (by intro sid hs; simp at hs; subst hs; rfl)
  exact h

/-- `_dependencies_satisfied` never touches `attempts` or `status`. -/
theorem dependenciesSatisfiedStep_preserves (stepsFn : String → StepRuntime)
    (step : Step) :
    (dependenciesSatisfiedStep stepsFn step).2.attempts = (stepsFn step.id).attempts ∧
    (dependenciesSatisfiedStep stepsFn step).2.status = (stepsFn step.id).status := by
  unfold dependenciesSatisfiedStep
  split
  · exact ⟨rfl, rfl⟩
  · cases hb : (stepsFn step.id).blocked_by_loop with
    | none => simp [hb]
    | some t =>
        simp only [hb]
        split <;> simp

/-- `_initialize_loop_items` never touches `attempts` or `status` on a
non-raising path. -/
theorem initializeLoopItems_preserves (fs : String → Option Json) (repoDir : String)
    (stepsFn : String → StepRuntime) (step : Step) (rt : StepRuntime)
    (b : Bool) (rt2 : StepRuntime)
    (h : initializeLoopItems fs repoDir stepsFn step rt = .ok (b, rt2)) :
    rt2.attempts = rt.attempts ∧ rt2.status = rt.status := by
  unfold initializeLoopItems at h
  repeat' split at h
  all_goals cases h
  all_goals exact ⟨rfl, rfl⟩

/-- C8: a pending step whose loop items materialize to the empty list is
completed in place by `_launch_ready_steps` — `loop_completed` set, status
`COMPLETED`, `attempts` untouched — and the runner is never invoked (the
outcome is `loopCompleted` and the active map is unchanged). -/
theorem c8_empty_loop_completes (P : OrchParams) (lenv : LaunchEnv)
    (st : OrchState) (sid : String) (step : Step) (rt2 : StepRuntime)
    (hid : step.id = sid)
    (hPending : (st.steps sid).status = .pending)
    (hNotActive : st.active.contains sid = false)
    (hDeps : (dependenciesSatisfiedStep st.steps step).1 = true)
    (hGates : step.gates.all (lenv.gateOpen sid) = true)
    (hLoop : step.loop.isSome = true)
    (hInit : initializeLoopItems lenv.artifactJson P.repoDir
        (st.setRt sid (dependenciesSatisfiedStep st.steps step).2).steps step
        (dependenciesSatisfiedStep st.steps step).2
      = .ok (true, rt2))
    (hEmpty : rt2.loop_items = some []) :
    (launchPhaseStep P lenv st sid step).2 = .loopCompleted ∧
    (launchPhaseStep P lenv st sid step).1.active = st.active ∧
    ((launchPhaseStep P lenv st sid step).1.steps sid).status = .completed ∧
    ((launchPhaseStep P lenv st sid step).1.steps sid).loop_completed = true ∧
    ((launchPhaseStep P lenv st sid step).1.steps sid).attempts
      = (st.steps sid).attempts := by
  obtain ⟨lc, hlc⟩ := Option.isSome_iff_exists.mp hLoop
  have hCont : shouldContinueLoop step rt2 = false := by
    unfold shouldContinueLoop
    rw [hlc, hEmpty]
    rfl
  have hPres := initializeLoopItems_preserves lenv.artifactJson P.repoDir
    (st.setRt sid (dependenciesSatisfiedStep st.steps step).2).steps step
    (dependenciesSatisfiedStep st.steps step).2 true rt2 hInit
  have hDep := dependenciesSatisfiedStep_preserves st.steps step
  have hNA : sid ∉ st.active := by simp at hNotActive; exact hNotActive
  unfold launchPhaseStep
  simp [hPending, hNA, hDeps, hGates, hInit, hLoop, hCont]
  simp [OrchState.setRt, hPres.1, hDep.1, hid]

/-- C5 counterexample: a payload with all seven required keys but
`artifacts: null` makes `read` raise an uncaught `TypeError` — neither a
classified `RunReportError` (none of the claim's error conditions holds:
the required-key filter is empty) nor a returned `RunReport`. -/
theorem c5_counterexample_null_artifacts :
    readReport defaultReaderConfig true (fun _ => .ok (.obj nullArtifactsPayload))
      = .error .uncaughtTypeError ∧
    ReadErr.classified .uncaughtTypeError = false ∧
    (requiredFields.filter (fun f => (jsonGet nullArtifactsPayload f).isNone)).isEmpty
      = true :=
  ⟨rfl, rfl, rfl⟩

/-- A list-coercible field yields a `pyList` success (after the `.get`
default). -/
theorem listCoercible_ok (v : Option Json) (h : listCoercible v = true) :
    ∃ l, pyList (v.getD (.arr [])) = .ok l := by
  cases v with
  | none => exact ⟨[], rfl⟩
  | some x =>
      unfold listCoercible at h
      cases hp : pyList x with
      | ok l => exact ⟨l, hp⟩
      | error e => simp [hp] at h

/-- A dict-coercible field yields a `pyDict` success (after the `.get`
default). -/
theorem dictCoercible_ok (v : Option Json) (h : dictCoercible v = true) :
    ∃ l, pyDict (v.getD (.obj [])) = .ok l := by
  cases v with
  | none => exact ⟨[], rfl⟩
  | some x =>
      unfold dictCoercible at h
      cases hp : pyDict x with
      | ok l => exact ⟨l, hp⟩
      | error e => simp [hp] at h

/-- C5 (amended): `read` raises a classified `RunReportError` exactly when
the file is absent, every configured parse attempt fails, the first
successful parse is not an object, the configured validator rejects it, or
a required key is missing; the default retry budget is 3 attempts.  When
none of these holds and the optional `artifacts`/`metrics`/`logs`/
`next_suggested_steps` fields are coercible, `read` returns a `RunReport`
with `status` upper-cased and the missing optional fields defaulted
(empty lists, empty metrics, `gate_failure = false`); a non-coercible
optional field instead escapes as an unclassified `TypeError`. -/
theorem c5_read_classification (cfg : ReaderConfig) (ex : Bool)
    (contents : Nat → Except Unit Json) :
    ((∃ e, readReport cfg ex contents = .error e ∧ e.classified = true) ↔
      (ex = false ∨
       firstParse contents (effectiveRetryAttempts cfg.retry_attempts) 1 = none ∨
       (∃ payload,
          firstParse contents (effectiveRetryAttempts cfg.retry_attempts) 1
            = some payload ∧ ∀ fields, payload ≠ .obj fields) ∨
       (∃ fields,
          firstParse contents (effectiveRetryAttempts cfg.retry_attempts) 1
            = some (.obj fields) ∧ cfg.hasValidator = true ∧
          cfg.validatorAccepts (.obj fields) = false) ∨
       (∃ fields,
          firstParse contents (effectiveRetryAttempts cfg.retry_attempts) 1
            = some (.obj fields) ∧
          ¬ (requiredFields.filter (fun f => (jsonGet fields f).isNone)).isEmpty = true)))
    ∧ (∀ fields, ex = true →
        firstParse contents (effectiveRetryAttempts cfg.retry_attempts) 1
          = some (.obj fields) →
        (cfg.hasValidator = true → cfg.validatorAccepts (.obj fields) = true) →
        (requiredFields.filter (fun f => (jsonGet fields f).isNone)).isEmpty = true →
        listCoercible (jsonGet fields "artifacts") = true →
        dictCoercible (jsonGet fields "metrics") = true →
        listCoercible (jsonGet fields "logs") = true →
        listCoercible (jsonGet fields "next_suggested_steps") = true →
        ∃ rep, readReport cfg ex contents = .ok rep ∧
          rep.status = pyUpper (pyStr ((jsonGet fields "status").getD .null)) ∧
          (jsonGet fields "artifacts" = none → rep.artifacts = []) ∧
          (jsonGet fields "metrics" = none → rep.metrics = []) ∧
          (jsonGet fields "logs" = none → rep.logs = []) ∧
          (jsonGet fields "next_suggested_steps" = none →
            rep.next_suggested_steps = []) ∧
          (jsonGet fields "gate_failure" = none → rep.gate_failure = false))
    ∧ effectiveRetryAttempts defaultRetryAttempts = 3 := by
  refine ⟨?_, ?_, rfl⟩
  · cases ex with
    | false =>
        constructor
        · intro _; exact Or.inl rfl
        · intro _; exact ⟨.notFound, rfl, rfl⟩
    | true =>
        unfold readReport
        simp only [Bool.not_true, Bool.false_eq_true, if_false]
        cases hfp : firstParse contents (effectiveRetryAttempts cfg.retry_attempts) 1 with
        | none =>
            constructor
            · intro _; exact Or.inr (Or.inl rfl)
            · intro _; exact ⟨.invalidJson, rfl, rfl⟩
        | some payload =>
            cases payload with
            | obj fields =>
                by_cases hv : (cfg.hasValidator && !cfg.validatorAccepts (.obj fields)) = true
                · simp only [hv, if_true]
                  constructor
                  · intro _
                    refine Or.inr (Or.inr (Or.inr (Or.inl ⟨fields, rfl, ?_, ?_⟩)))
                    · exact (Bool.and_eq_true_iff.mp hv).1
                    · have := (Bool.and_eq_true_iff.mp hv).2
                      simpa using this
                  · intro _; exact ⟨.schemaFailed, rfl, rfl⟩
                · simp only [hv, if_false]
                  by_cases hm :
                    (!(requiredFields.filter
                        (fun f => (jsonGet fields f).isNone)).isEmpty) = true
                  · simp only [hm, if_true]
                    constructor
                    · intro _
                      refine Or.inr (Or.inr (Or.inr (Or.inr ⟨fields, rfl, ?_⟩)))
                      simpa using hm
                    · intro _; exact ⟨.missingFields _, rfl, rfl⟩
                  · simp only [hm, if_false]
                    have hRhsFalse :
                        ¬ (true = false ∨
                           (some (Json.obj fields) : Option Json) = none ∨
                           (∃ payload,
                              (some (Json.obj fields) : Option Json) = some payload ∧
                              ∀ fs, payload ≠ .obj fs) ∨
                           (∃ fs,
                              (some (Json.obj fields) : Option Json) = some (.obj fs) ∧
                              cfg.hasValidator = true ∧
                              cfg.validatorAccepts (.obj fs) = false) ∨
                           (∃ fs,
                              (some (Json.obj fields) : Option Json) = some (.obj fs) ∧
                              ¬ (requiredFields.filter
                                  (fun f => (jsonGet fs f).isNone)).isEmpty = true)) := by
                      rintro (h | h | ⟨p, hp, hno⟩ | ⟨fs, hfs, hval, hrej⟩ | ⟨fs, hfs, hmiss⟩)
                      · cases h
                      · cases h
                      · injection hp with h1
                        exact hno fields h1.symm
                      · injection hfs with h1
                        cases h1
                        exact hv (by simp [hval, hrej])
                      · injection hfs with h1
                        cases h1
                        exact hmiss (by simpa using hm)
                    constructor
                    · intro ⟨e, he, hc⟩
                      exfalso
                      revert he
                      cases hart : pyList ((jsonGet fields "artifacts").getD (.arr [])) with
                      | error u => simp only [hart]; intro he; injection he with h1; subst h1; cases hc
                      | ok la =>
                        simp only [hart]
                        cases hmet : pyDict ((jsonGet fields "metrics").getD (.obj [])) with
                        | error u => simp only [hmet]; intro he; injection he with h1; subst h1; cases hc
                        | ok lm =>
                          simp only [hmet]
                          cases hlog : pyList ((jsonGet fields "logs").getD (.arr [])) with
                          | error u => simp only [hlog]; intro he; injection he with h1; subst h1; cases hc
                          | ok ll =>
                            simp only [hlog]
                            cases hnss : pyList ((jsonGet fields "next_suggested_steps").getD (.arr [])) with
                            | error u => simp only [hnss]; intro he; injection he with h1; subst h1; cases hc
                            | ok ln => simp only [hnss]; intro he; cases he
                    · intro h
                      exact absurd (by simpa [hfp] using h) hRhsFalse
            | null =>
                constructor
                · intro _
                  exact Or.inr (Or.inr (Or.inl ⟨.null, rfl, fun fs h => by cases h⟩))
                · intro _; exact ⟨.notObject, rfl, rfl⟩
            | bool b =>
                constructor
                · intro _
                  exact Or.inr (Or.inr (Or.inl ⟨.bool b, rfl, fun fs h => by cases h⟩))
                · intro _; exact ⟨.notObject, rfl, rfl⟩
            | num n =>
                constructor
                · intro _
                  exact Or.inr (Or.inr (Or.inl ⟨.num n, rfl, fun fs h => by cases h⟩))
                · intro _; exact ⟨.notObject, rfl, rfl⟩
            | str s =>
                constructor
                · intro _
                  exact Or.inr (Or.inr (Or.inl ⟨.str s, rfl, fun fs h => by cases h⟩))
                · intro _; exact ⟨.notObject, rfl, rfl⟩
            | arr xs =>
                constructor
                · intro _
                  exact Or.inr (Or.inr (Or.inl ⟨.arr xs, rfl, fun fs h => by cases h⟩))
                · intro _; exact ⟨.notObject, rfl, rfl⟩
  · intro fields hex hfp hval hmiss hart hmet hlog hnss
    subst hex
    obtain ⟨la, hla⟩ := listCoercible_ok _ hart
    obtain ⟨lm, hlm⟩ := dictCoercible_ok _ hmet
    obtain ⟨ll, hll⟩ := listCoercible_ok _ hlog
    obtain ⟨ln, hln⟩ := listCoercible_ok _ hnss
    unfold readReport
    simp only [Bool.not_true, Bool.false_eq_true, if_false, hfp]
    have hvb : (cfg.hasValidator && !cfg.validatorAccepts (.obj fields)) = false := by
      cases hcv : cfg.hasValidator with
      | false => rfl
      | true => simp [hval hcv]
    simp only [hvb, Bool.false_eq_true, if_false, hmiss, Bool.not_true, hla, hlm, hll, hln]
    refine ⟨_, rfl, rfl, ?_, ?_, ?_, ?_, ?_⟩
    · intro hnone
      rw [hnone] at hla
      exact (by injection hla with h1; exact h1.symm : la = [])
    · intro hnone
      rw [hnone] at hlm
      exact (by injection hlm with h1; exact h1.symm : lm = [])
    · intro hnone
      rw [hnone] at hll
      exact (by injection hll with h1; exact h1.symm : ll = [])
    · intro hnone
      rw [hnone] at hln
      exact (by injection hln with h1; exact h1.symm : ln = [])
    · intro hnone
      rw [hnone]
      rfl

/-- Witness for C5 (amended) on a minimal fully-typed payload: the
classified-error characterization instantiated at a missing file, plus the
return path on a well-typed payload. -/
theorem c5_witness :
    ((∃ e, readReport defaultReaderConfig false
        (fun _ => .ok (.obj nullArtifactsPayload)) = .error e ∧
        e.classified = true) ↔
      (false = false ∨
       firstParse (fun _ => .ok (.obj nullArtifactsPayload))
           (effectiveRetryAttempts defaultReaderConfig.retry_attempts) 1 = none ∨
       (∃ payload,
          firstParse (fun _ => .ok (.obj nullArtifactsPayload))
              (effectiveRetryAttempts defaultReaderConfig.retry_attempts) 1
            = some payload ∧ ∀ fields, payload ≠ .obj fields) ∨
       (∃ fields,
          firstParse (fun _ => .ok (.obj nullArtifactsPayload))
              (effectiveRetryAttempts defaultReaderConfig.retry_attempts) 1
            = some (.obj fields) ∧ defaultReaderConfig.hasValidator = true ∧
          defaultReaderConfig.validatorAccepts (.obj fields) = false) ∨
       (∃ fields,
          firstParse (fun _ => .ok (.obj nullArtifactsPayload))
              (effectiveRetryAttempts defaultReaderConfig.retry_attempts) 1
            = some (.obj fields) ∧
          ¬ (requiredFields.filter (fun f => (jsonGet fields f).isNone)).isEmpty
            = true))) ∧
    (∃ rep, readReport defaultReaderConfig true
        (fun _ => .ok (.obj placeholderReportPayload)) = .ok rep ∧
        rep.status = pyUpper (pyStr ((jsonGet placeholderReportPayload "status").getD .null)) ∧
        (jsonGet placeholderReportPayload "artifacts" = none → rep.artifacts = []) ∧
        (jsonGet placeholderReportPayload "metrics" = none → rep.metrics = []) ∧
        (jsonGet placeholderReportPayload "logs" = none → rep.logs = []) ∧
        (jsonGet placeholderReportPayload "next_suggested_steps" = none →
          rep.next_suggested_steps = []) ∧
        (jsonGet placeholderReportPayload "gate_failure" = none →
          rep.gate_failure = false)) :=
  ⟨(c5_read_classification defaultReaderConfig false
      (fun _ => .ok (.obj nullArtifactsPayload))).1,
   (c5_read_classification defaultReaderConfig true
      (fun _ => .ok (.obj placeholderReportPayload))).2.1 placeholderReportPayload
     rfl rfl (fun h => by cases h) rfl rfl rfl rfl rfl⟩

/-- Witness for C8: a single step with `loop.items = []` in the initial
state goes straight to `COMPLETED` with zero attempts. -/
theorem c8_witness :
    (launchPhaseStep c8Params c8Lenv initialState "L" c8Step).2 = .loopCompleted ∧
    (launchPhaseStep c8Params c8Lenv initialState "L" c8Step).1.active
      = initialState.active ∧
    ((launchPhaseStep c8Params c8Lenv initialState "L" c8Step).1.steps "L").status
      = .completed ∧
    ((launchPhaseStep c8Params c8Lenv initialState "L" c8Step).1.steps "L").loop_completed
      = true ∧
    ((launchPhaseStep c8Params c8Lenv initialState "L" c8Step).1.steps "L").attempts
      = (initialState.steps "L").attempts :=
  c8_empty_loop_completes c8Params c8Lenv initialState "L" c8Step c8Rt2
    rfl rfl rfl rfl rfl rfl rfl rfl

/-- C10: the orchestrator's effective retry and loop-back limits are
`max(1, max_attempts)` and `max(1, max_iterations)` for any constructor
arguments (including zero and negatives), both are at least 1, and hence a
step with zero attempts is never a terminal failure and a step with zero
loop-back rounds always passes the `iteration_count < max_iterations`
guard. -/
theorem c10_min_one_attempt_and_iteration (a i : Int) (rt : StepRuntime)
    (hA : rt.attempts = 0) (hI : rt.iteration_count = 0) :
    effectiveMaxAttempts a = max 1 a ∧ effectiveMaxIterations i = max 1 i ∧
    1 ≤ effectiveMaxAttempts a ∧ 1 ≤ effectiveMaxIterations i ∧
    terminalFailure (effectiveMaxAttempts a) rt = false ∧
    ((rt.iteration_count : Int) < effectiveMaxIterations i) := by
  refine ⟨rfl, rfl, le_max_left 1 a, le_max_left 1 i, ?_, ?_⟩
  · have h1 : ¬ (effectiveMaxAttempts a ≤ ((rt.attempts : Int))) := by
      have := le_max_left (1 : Int) a
      unfold effectiveMaxAttempts
      rw [hA]
      omega
    unfold terminalFailure
    simp [h1]
  · have := le_max_left (1 : Int) i
    unfold effectiveMaxIterations
    rw [hI]
    omega

/-- Witness for C10 at `max_attempts = 0`, `max_iterations = -3` and a
fresh runtime. -/
theorem c10_witness :
    effectiveMaxAttempts 0 = max 1 0 ∧ effectiveMaxIterations (-3) = max 1 (-3) ∧
    1 ≤ effectiveMaxAttempts 0 ∧ 1 ≤ effectiveMaxIterations (-3) ∧
    terminalFailure (effectiveMaxAttempts 0) freshRuntime = false ∧
    ((freshRuntime.iteration_count : Int) < effectiveMaxIterations (-3)) :=
  c10_min_one_attempt_and_iteration 0 (-3) freshRuntime rfl rfl

/-- C4: `RunStatePersister.save` truncates the configured path in place,
so the crash point between opening and writing exposes an empty file —
content that is neither the previous document nor the new one — whereas
the spec's temp-sibling-and-rename save keeps a full document visible at
every crash point. -/
theorem c4_save_not_crash_safe :
    crashContents c4Fs0 (saveOps "run_state.json" c4Doc) "run_state.json"
      = [some "\x7b\x7d", some "", some c4Doc] ∧
    ("" : String) ≠ "\x7b\x7d" ∧ ("" : String) ≠ c4Doc ∧
    crashContents c4Fs0 (specAtomicSaveOps "run_state.json" "run_state.json.tmp" c4Doc)
        "run_state.json"
      = [some "\x7b\x7d", some "\x7b\x7d", some "\x7b\x7d", some c4Doc] := by
  refine ⟨rfl, by decide, by decide, rfl⟩

/-- C1: on the repository's own test payload — all seven required keys
present, `artifacts` still the placeholder words — `RunReportReader.read`
returns a `RunReport` instead of raising, even though
`normalize_run_report_payload` (which `read` never invokes) classifies the
very same payload as placeholder content. -/
theorem c1_read_accepts_placeholder_report :
    (∃ rep, readReport defaultReaderConfig true
        (fun _ => .ok (.obj placeholderReportPayload)) = .ok rep) ∧
    normalizeRunReportPayload placeholderReportPayload = .error .placeholderArtifacts ∧
    containsPlaceholderArtifacts ["list", "of", "created", "file", "paths"] = true :=
  ⟨⟨_, rfl⟩, rfl, rfl⟩

/-- C3 counterexample: a step left `FAILED` with `attempts = 1 <
max_attempts = 2` is requeued to `PENDING`, but its `last_error` is kept
("boom"), not cleared as the claim states. -/
theorem c3_counterexample_last_error_kept :
    ((finalizeStep 2 c3State "s").steps "s").status = .pending ∧
    ((finalizeStep 2 c3State "s").steps "s").last_error = some "boom" ∧
    ((finalizeStep 2 c3State "s").steps "s").last_error ≠ none := by
  refine ⟨rfl, rfl, by decide⟩

/-- C3 (amended): finalizing a step left `FAILED` with attempts below
`max_attempts` removes it from the active map, closes its log, and resets
it to `PENDING` with `started_at`, `ended_at`, `report_path` and both
notification flags cleared — while `last_error` is preserved (defaulted to
"retry scheduled" when falsy) and `attempts` is kept. -/
theorem c3_retry_requeue (maxAttempts : Int) (st : OrchState) (sid : String)
    (hF : (st.steps sid).status = .failed)
    (hA : ((st.steps sid).attempts : Int) < maxAttempts) :
    (finalizeStep maxAttempts st sid).active = st.active.erase sid ∧
    (finalizeStep maxAttempts st sid).closedLogs = sid :: st.closedLogs ∧
    ((finalizeStep maxAttempts st sid).steps sid).status = .pending ∧
    ((finalizeStep maxAttempts st sid).steps sid).started_at = none ∧
    ((finalizeStep maxAttempts st sid).steps sid).ended_at = none ∧
    ((finalizeStep maxAttempts st sid).steps sid).report_path = none ∧
    ((finalizeStep maxAttempts st sid).steps sid).notified_failure = false ∧
    ((finalizeStep maxAttempts st sid).steps sid).notified_human_input = false ∧
    ((finalizeStep maxAttempts st sid).steps sid).last_error
      = some (pyOrStr (st.steps sid).last_error "retry scheduled") ∧
    ((finalizeStep maxAttempts st sid).steps sid).attempts = (st.steps sid).attempts := by
  unfold finalizeStep
  simp [hF, hA]

/-- Witness for C3 (amended) at the concrete failed step. -/
theorem c3_retry_requeue_witness :
    (finalizeStep 2 c3State "s").active = c3State.active.erase "s" ∧
    (finalizeStep 2 c3State "s").closedLogs = "s" :: c3State.closedLogs ∧
    ((finalizeStep 2 c3State "s").steps "s").status = .pending ∧
    ((finalizeStep 2 c3State "s").steps "s").started_at = none ∧
    ((finalizeStep 2 c3State "s").steps "s").ended_at = none ∧
    ((finalizeStep 2 c3State "s").steps "s").report_path = none ∧
    ((finalizeStep 2 c3State "s").steps "s").notified_failure = false ∧
    ((finalizeStep 2 c3State "s").steps "s").notified_human_input = false ∧
    ((finalizeStep 2 c3State "s").steps "s").last_error
      = some (pyOrStr (c3State.steps "s").last_error "retry scheduled") ∧
    ((finalizeStep 2 c3State "s").steps "s").attempts = (c3State.steps "s").attempts :=
  c3_retry_requeue 2 c3State "s" rfl (by decide)

/-- C9: `GitWorktreeManager.create` raises before issuing any git command
both for a branch name failing validation (pattern mismatch, a `..`, or a
leading `-`) and for a resolved destination that does not lie within the
parent directory of the repository root. -/
theorem c9_create_validation (repoRoot worktreeRoot : List String)
    (branch runId baseRef : String) (gitOutcome : Except WorktreeErr Unit) :
    (reMatchBranch branch = false ∨ pySubstring ".." branch = true ∨
        strStartsWith "-" branch = true →
      ∃ e, worktreeCreate repoRoot worktreeRoot branch runId baseRef gitOutcome
        = (.error e, [])) ∧
    (withinParent repoRoot (worktreeRoot ++ [flattenBranch branch]) = false →
      ∃ e, worktreeCreate repoRoot worktreeRoot branch runId baseRef gitOutcome
        = (.error e, [])) := by
  constructor
  · intro h
    by_cases hm : reMatchBranch branch = true
    · rcases h with h | h | h
      · rw [hm] at h; cases h
      · exact ⟨.forbiddenPattern, by simp [worktreeCreate, hm, h]⟩
      · exact ⟨.forbiddenPattern, by simp [worktreeCreate, hm, h]⟩
    · simp only [Bool.not_eq_true] at hm
      exact ⟨.invalidBranch, by simp [worktreeCreate, hm]⟩
  · intro h
    by_cases h1 : reMatchBranch branch = true
    · by_cases h2 : pySubstring ".." branch = true
      · exact ⟨.forbiddenPattern, by simp [worktreeCreate, h1, h2]⟩
      · by_cases h3 : strStartsWith "-" branch = true
        · exact ⟨.forbiddenPattern, by simp [worktreeCreate, h1, h3]⟩
        · simp only [Bool.not_eq_true] at h2 h3
          exact ⟨.outsideParent, by simp [worktreeCreate, h1, h2, h3, h]⟩
    · simp only [Bool.not_eq_true] at h1
      exact ⟨.invalidBranch, by simp [worktreeCreate, h1]⟩

/-- Witness for C9: a traversal-shaped branch name is rejected, and a
valid branch name resolving outside the repository parent is rejected,
both without a git invocation. -/
theorem c9_witness :
    (∃ e, worktreeCreate ["", "home", "repo"]
        ["", "home", "repo", ".agents", "worktrees"] "../evil" "ab12cd34" "HEAD"
        (.ok ()) = (.error e, [])) ∧
    (∃ e, worktreeCreate ["", "home", "repo"] ["", "tmp"] "feature/x" "ab12cd34"
        "HEAD" (.ok ()) = (.error e, [])) :=
  ⟨(c9_create_validation ["", "home", "repo"]
      ["", "home", "repo", ".agents", "worktrees"] "../evil" "ab12cd34" "HEAD"
      (.ok ())).1 (Or.inl (by decide)),
   (c9_create_validation ["", "home", "repo"] ["", "tmp"] "feature/x" "ab12cd34"
      "HEAD" (.ok ())).2 (by decide)⟩

/-! ## Saturation of the loop-back reset set -/

/-- Bridge between `List.contains` and membership for strings. -/
theorem contains_iff (l : List String) (a : String) : l.contains a = true ↔ a ∈ l := by
  simp

/-- One saturation pass only grows the set. -/
theorem growOnce_subset (wf : List (String × Step)) (cur : List String) :
    cur ⊆ growOnce wf cur :=
  fun _ hx => List.mem_append_left _ hx

/-- Iterated saturation only grows the set. -/
theorem growN_subset (wf : List (String × Step)) (n : Nat) (cur : List String) :
    cur ⊆ growN wf n cur := by
  induction n generalizing cur with
  | zero => exact fun _ hx => hx
  | succ n ih => exact fun _ hx => ih (growOnce wf cur) (growOnce_subset wf cur hx)

/-- A fixed point of one pass is closed under reverse dependencies. -/
theorem closed_of_growOnce_eq (wf : List (String × Step)) (cur : List String)
    (h : growOnce wf cur = cur) : ClosedUnder wf cur := by
  intro p hp hdep
  obtain ⟨d, hd, hdc⟩ := hdep
  by_contra hnot
  have hfil : p ∈ wf.filter
      (fun p => !cur.contains p.1 && p.2.needs.any (fun d => cur.contains d)) := by
    refine List.mem_filter.mpr ⟨hp, ?_⟩
    refine Bool.and_eq_true_iff.mpr ⟨?_, ?_⟩
    · simpa using hnot
    · exact List.any_eq_true.mpr ⟨d, hd, (contains_iff cur d).mpr hdc⟩
  have hmem : p.1 ∈ growOnce wf cur :=
    List.mem_append_right _ (List.mem_map.mpr ⟨p, hfil, rfl⟩)
  rw [h] at hmem
  exact hnot hmem

/-- A fixpoint of one pass stays fixed under iteration. -/
theorem growN_eq_of_fix (wf : List (String × Step)) (n : Nat) (cur : List String)
    (h : growOnce wf cur = cur) : growN wf n cur = cur := by
  induction n generalizing cur with
  | zero => rfl
  | succ n ih =>
      show growN wf n (growOnce wf cur) = cur
      rw [h]
      exact ih cur h

/-- `countP` is monotone under pointwise implication of predicates. -/
theorem countP_le_of_imp (l : List String) (p q : String → Bool)
    (hmono : ∀ a ∈ l, p a = true → q a = true) : l.countP p ≤ l.countP q := by
  induction l with
  | nil => exact Nat.le_refl _
  | cons hd tl ih =>
      rw [List.countP_cons, List.countP_cons]
      have h1 := ih (fun a ha => hmono a (List.mem_cons_of_mem _ ha))
      by_cases hp : p hd = true
      · simp [hp, hmono hd (List.mem_cons_self _ _) hp]
        omega
      · simp only [Bool.not_eq_true] at hp
        simp [hp]
        omega

/-- `countP` strictly grows when some element newly satisfies the larger
predicate. -/
theorem countP_lt_of_witness (l : List String) (p q : String → Bool)
    (hmono : ∀ a ∈ l, p a = true → q a = true)
    (a0 : String) (ha0 : a0 ∈ l) (hp0 : p a0 = false) (hq0 : q a0 = true) :
    l.countP p < l.countP q := by
  induction l with
  | nil => cases ha0
  | cons hd tl ih =>
      rw [List.countP_cons, List.countP_cons]
      rcases List.mem_cons.mp ha0 with rfl | hmem
      · have hle := countP_le_of_imp tl p q
          (fun a ha => hmono a (List.mem_cons_of_mem _ ha))
        simp [hp0, hq0]
        omega
      · have hlt := ih (fun a ha => hmono a (List.mem_cons_of_mem _ ha)) hmem
        have hif : (if p hd = true then 1 else 0) ≤ (if q hd = true then 1 else 0) := by
          by_cases hp : p hd = true
          · simp [hp, hmono hd (List.mem_cons_self _ _) hp]
          · simp [hp]
        omega

/-- A non-fixed pass strictly increases the key measure. -/
theorem keysIn_lt_of_ne (wf : List (String × Step)) (cur : List String)
    (h : growOnce wf cur ≠ cur) :
    keysIn wf cur < keysIn wf (growOnce wf cur) := by
  cases hfil : wf.filter
      (fun p => !cur.contains p.1 && p.2.needs.any (fun d => cur.contains d)) with
  | nil =>
      exfalso
      apply h
      unfold growOnce
      rw [hfil]
      simp
  | cons p ps =>
      have hpfil : p ∈ wf.filter
          (fun p => !cur.contains p.1 && p.2.needs.any (fun d => cur.contains d)) := by
        rw [hfil]; exact List.mem_cons_self _ _
      have hpf := List.mem_filter.mp hpfil
      obtain ⟨hnc, _⟩ := Bool.and_eq_true_iff.mp hpf.2
      have hp0 : cur.contains p.1 = false := by
        cases hcc : cur.contains p.1 with
        | false => rfl
        | true => rw [hcc] at hnc; cases hnc
      have hq0 : (growOnce wf cur).contains p.1 = true := by
        refine (contains_iff _ _).mpr ?_
        refine List.mem_append_right _ ?_
        rw [hfil]
        exact List.mem_map.mpr ⟨p, List.mem_cons_self _ _, rfl⟩
      refine countP_lt_of_witness _ _ _ ?_ p.1 (List.mem_map.mpr ⟨p, hpf.1, rfl⟩) hp0 hq0
      intro a _ hpa
      exact (contains_iff _ _).mpr (growOnce_subset wf cur ((contains_iff _ _).mp hpa))

/-- Each saturation round either reaches a closed set or captures one more
workflow key. -/
theorem growN_closed_or (wf : List (String × Step)) (n : Nat) (cur : List String) :
    ClosedUnder wf (growN wf n cur) ∨ keysIn wf cur + n ≤ keysIn wf (growN wf n cur) := by
  induction n generalizing cur with
  | zero => right; simp [growN]
  | succ n ih =>
      by_cases hfix : growOnce wf cur = cur
      · left
        have h1 : growN wf (n + 1) cur = cur := by
          show growN wf n (growOnce wf cur) = cur
          rw [hfix]
          exact growN_eq_of_fix wf n cur hfix
        rw [h1]
        exact closed_of_growOnce_eq wf cur hfix
      · have hlt := keysIn_lt_of_ne wf cur hfix
        rcases ih (growOnce wf cur) with hcl | hge
        · exact Or.inl hcl
        · right
          have : keysIn wf cur + (n + 1) ≤ keysIn wf (growOnce wf cur) + n := by omega
          exact le_trans this hge

/-- The key measure is bounded by the workflow size. -/
theorem keysIn_le (wf : List (String × Step)) (cur : List String) :
    keysIn wf cur ≤ wf.length := by
  unfold keysIn
  calc (wf.map Prod.fst).countP (fun k => cur.contains k)
      ≤ (wf.map Prod.fst).length := List.countP_le_length _
    _ = wf.length := List.length_map _ _

/-- `_handle_loop_back`'s reset set is closed: a step depending on a reset
step is itself reset. -/
theorem resetTargets_closed (wf : List (String × Step)) (t : String) :
    ClosedUnder wf (resetTargets wf t) := by
  rcases growN_closed_or wf wf.length [t] with h | h
  · exact h
  · intro p hp _
    have hub := keysIn_le wf (resetTargets wf t)
    have h2 : keysIn wf (resetTargets wf t) = wf.length := by
      unfold resetTargets at hub ⊢
      omega
    have h3 : ((wf.map Prod.fst).countP fun k => (resetTargets wf t).contains k)
        = (wf.map Prod.fst).length := by
      unfold keysIn at h2
      rw [List.length_map]
      exact h2
    have h4 := List.countP_eq_length.mp h3 p.1 (List.mem_map.mpr ⟨p, hp, rfl⟩)
    exact (contains_iff _ _).mp h4

/-- Everything one pass adds is the target or transitively needs it. -/
theorem growOnce_sound (wf : List (String × Step)) (t : String) (cur : List String)
    (h : ∀ x ∈ cur, x = t ∨ NeedsTrans wf x t) :
    ∀ x ∈ growOnce wf cur, x = t ∨ NeedsTrans wf x t := by
  intro x hx
  rcases List.mem_append.mp hx with hx | hx
  · exact h x hx
  · obtain ⟨p, hpfil, rfl⟩ := List.mem_map.mp hx
    have hpf := List.mem_filter.mp hpfil
    obtain ⟨_, hany⟩ := Bool.and_eq_true_iff.mp hpf.2
    obtain ⟨d, hd, hdc⟩ := List.any_eq_true.mp hany
    have hdmem : d ∈ cur := (contains_iff cur d).mp hdc
    rcases h d hdmem with rfl | hdt
    · exact Or.inr (NeedsTrans.direct hpf.1 hd)
    · exact Or.inr (NeedsTrans.indirect hpf.1 hd hdt)

/-- Soundness of the iterated saturation. -/
theorem growN_sound (wf : List (String × Step)) (t : String) (n : Nat)
    (cur : List String) (h : ∀ x ∈ cur, x = t ∨ NeedsTrans wf x t) :
    ∀ x ∈ growN wf n cur, x = t ∨ NeedsTrans wf x t := by
  induction n generalizing cur with
  | zero => exact h
  | succ n ih => exact ih (growOnce wf cur) (growOnce_sound wf t cur h)

/-- Every member of the reset set is the target or transitively needs it. -/
theorem resetTargets_sound (wf : List (String × Step)) (t : String) :
    ∀ x ∈ resetTargets wf t, x = t ∨ NeedsTrans wf x t := by
  refine growN_sound wf t wf.length [t] ?_
  intro x hx
  exact Or.inl (List.mem_singleton.mp hx)

/-- The target belongs to its own reset set. -/
theorem resetTargets_mem_self (wf : List (String × Step)) (t : String) :
    t ∈ resetTargets wf t :=
  growN_subset wf wf.length [t] (List.mem_singleton.mpr rfl)

/-- Every transitive dependent of the target is in the reset set. -/
theorem resetTargets_complete (wf : List (String × Step)) {x t : String}
    (h : NeedsTrans wf x t) : x ∈ resetTargets wf t := by
  induction h with
  | @direct x1 t1 s1 hmem hneed =>
      exact resetTargets_closed wf t1 (x1, s1) hmem
        ⟨t1, hneed, resetTargets_mem_self wf t1⟩
  | @indirect x1 d1 t1 s1 hmem hneed _ ih =>
      exact resetTargets_closed wf t1 (x1, s1) hmem ⟨d1, hneed, ih⟩

/-- C2 counterexample: in the chain `A ← B ← C` with `B.loop_back_to = A`,
`B`'s loop-back resets `C` — a step strictly downstream of the source `B`
— to a fresh runtime (attempts drop from 2 to 0), contradicting the
claim that steps downstream of `S` keep their runtime. -/
theorem c2_counterexample_downstream_reset :
    ((handleLoopBack chainWorkflow chainState "B" "A").steps "C").attempts = 0 ∧
    (chainState.steps "C").attempts = 2 ∧
    ((handleLoopBack chainWorkflow chainState "B" "A").steps "C").attempts
      ≠ (chainState.steps "C").attempts ∧
    ((chainWorkflow.lookup "C").map Step.needs) = some ["B"] ∧
    ((chainWorkflow.lookup "B").map Step.loop_back_to) = some (some "A") := by
  refine ⟨rfl, rfl, by decide, rfl, rfl⟩

/-- C2 (amended): on a gate-failure loop-back from `S` to a known target
`T`, the handler requeues `S` to `PENDING` (bumping `iteration_count`,
keeping `attempts`, `blocked_by_loop = T` iff `S ≠ T`), replaces with a
fresh runtime exactly the steps other than `S` in `{T} ∪ {steps
transitively needing T}` — including steps downstream of `S` when they
transitively need `T` — preserving `T`'s `iteration_count`, and leaves
every step outside that set (and the active map) unchanged. -/
theorem c2_loop_back_frame (wf : List (String × Step)) (st : OrchState)
    (fromStep toStep : String)
    (hto : (wf.lookup toStep).isNone = false) :
    ((handleLoopBack wf st fromStep toStep).steps fromStep).status = .pending ∧
    ((handleLoopBack wf st fromStep toStep).steps fromStep).iteration_count
      = (st.steps fromStep).iteration_count + 1 ∧
    ((handleLoopBack wf st fromStep toStep).steps fromStep).attempts
      = (st.steps fromStep).attempts ∧
    ((handleLoopBack wf st fromStep toStep).steps fromStep).blocked_by_loop
      = (if fromStep ≠ toStep then some toStep else none) ∧
    (∀ x, x ≠ fromStep → (x = toStep ∨ NeedsTrans wf x toStep) →
      (handleLoopBack wf st fromStep toStep).steps x
        = (if x = toStep then
            { freshRuntime with iteration_count := (st.steps toStep).iteration_count }
          else freshRuntime)) ∧
    (∀ x, x ≠ fromStep → ¬(x = toStep ∨ NeedsTrans wf x toStep) →
      (handleLoopBack wf st fromStep toStep).steps x = st.steps x) ∧
    (handleLoopBack wf st fromStep toStep).active = st.active := by
  refine ⟨?_, ?_, ?_, ?_, ?_, ?_, ?_⟩
  · simp [handleLoopBack, hto, OrchState.setRt]
  · simp [handleLoopBack, hto, OrchState.setRt]
  · simp [handleLoopBack, hto, OrchState.setRt]
  · simp [handleLoopBack, hto, OrchState.setRt]
  · intro x hxf hxg
    have hmemx : x ∈ resetTargets wf toStep := by
      rcases hxg with h | h
      · rw [h]; exact resetTargets_mem_self wf toStep
      · exact resetTargets_complete wf h
    by_cases hxt : x = toStep
    · subst hxt
      simp [handleLoopBack, hto, OrchState.setRt, hmemx, hxf]
    · simp [handleLoopBack, hto, OrchState.setRt, hmemx, hxf, hxt]
  · intro x hxf hxg
    have hnmem : x ∉ resetTargets wf toStep := fun hm =>
      hxg (resetTargets_sound wf toStep x hm)
    simp [handleLoopBack, hto, OrchState.setRt, hnmem, hxf]
  · simp [handleLoopBack, hto, OrchState.setRt]

/-- A transitive dependent is itself a workflow step. -/
theorem needsTrans_mem (wf : List (String × Step)) {x t : String}
    (h : NeedsTrans wf x t) : ∃ s, (x, s) ∈ wf := by
  cases h with
  | direct hmem _ => exact ⟨_, hmem⟩
  | indirect hmem _ _ => exact ⟨_, hmem⟩

/-- Witness for C2 (amended) on the concrete chain: `B` requeued with
`blocked_by_loop = A`, `C` (a transitive dependent of `A`) freshly reset,
and a step outside the closure untouched. -/
theorem c2_loop_back_frame_witness :
    ((handleLoopBack chainWorkflow chainState "B" "A").steps "B").status
      = .pending ∧
    ((handleLoopBack chainWorkflow chainState "B" "A").steps "B").blocked_by_loop
      = (if ("B" : String) ≠ "A" then some "A" else none) ∧
    (handleLoopBack chainWorkflow chainState "B" "A").steps "C"
      = (if ("C" : String) = "A" then
          { freshRuntime with iteration_count := (chainState.steps "A").iteration_count }
        else freshRuntime) ∧
    (handleLoopBack chainWorkflow chainState "B" "A").steps "Z"
      = chainState.steps "Z" := by
  have h := c2_loop_back_frame chainWorkflow chainState "B" "A" rfl
  refine ⟨h.1, h.2.2.2.1, ?_, ?_⟩
  · refine h.2.2.2.2.1 "C" (show ("C" : String) ≠ "B" by decide) (Or.inr ?_)
    exact NeedsTrans.indirect (d := "B") (s := { id := "C", needs := ["B"] })
      (by simp [chainWorkflow]) (by simp)
      (NeedsTrans.direct (t := "A")
        (s := { id := "B", needs := ["A"], loop_back_to := some "A" })
        (by simp [chainWorkflow]) (by simp))
  · refine h.2.2.2.2.2.1 "Z" (show ("Z" : String) ≠ "B" by decide) ?_
    rintro (h1 | h1)
    · exact absurd h1 (by decide)
    · obtain ⟨s, hmem⟩ := needsTrans_mem chainWorkflow h1
      simp [chainWorkflow] at hmem

/-! ## Preservation of the scheduling invariant -/

/-- A successful lookup yields a member. -/
theorem lookup_mem {l : List (String × Step)} {a : String} {b : Step}
    (h : l.lookup a = some b) : (a, b) ∈ l := by
  induction l with
  | nil => cases h
  | cons hd tl ih =>
      obtain ⟨k, v⟩ := hd
      unfold List.lookup at h
      cases hb : (a == k) with
      | true =>
          rw [hb] at h
          injection h with h1
          have : a = k := by simpa using hb
          subst this
          subst h1
          exact List.mem_cons_self _ _
      | false =>
          rw [hb] at h
          exact List.mem_cons_of_mem _ (ih h)

/-- A dependency check that passed implies every `needs` entry is
terminal-successful. -/
theorem depsSat_true_needs (stepsFn : String → StepRuntime) (step : Step)
    (h : (dependenciesSatisfiedStep stepsFn step).1 = true) :
    needsSatisfied stepsFn step = true := by
  unfold dependenciesSatisfiedStep at h
  cases hn : needsSatisfied stepsFn step with
  | true => rfl
  | false =>
      rw [hn] at h
      simp at h

/-- `needsSatisfied` only looks at statuses. -/
theorem needsSatisfied_of_samestatus (stF stF' : String → StepRuntime) (step : Step)
    (hs : ∀ x, (stF' x).status = (stF x).status)
    (h : needsSatisfied stF step = true) : needsSatisfied stF' step = true := by
  unfold needsSatisfied at h ⊢
  rw [List.all_eq_true] at h ⊢
  intro d hd
  rw [hs d]
  exact h d hd

/-- The notification wrappers never change a runtime's status. -/
theorem applyNotify_status (b : Bool) (rt : StepRuntime) :
    (applyNotifyFailure b rt).status = rt.status ∧
    (applyNotifyHuman b rt).status = rt.status := by
  unfold applyNotifyFailure applyNotifyHuman
  constructor <;> (split <;> try rfl) <;> (split <;> rfl)

/-- Updating one runtime without changing its status preserves the
running-dependencies invariant. -/
theorem depsInv_update_samestatus (wf : List (String × Step))
    (stF stF' : String → StepRuntime) (sid : String)
    (hInv : DepsOfRunningTerminal wf stF)
    (hOther : ∀ x, x ≠ sid → stF' x = stF x)
    (hSame : (stF' sid).status = (stF sid).status) :
    DepsOfRunningTerminal wf stF' := by
  have hstat : ∀ y, (stF' y).status = (stF y).status := by
    intro y
    by_cases hy : y = sid
    · subst hy; exact hSame
    · rw [hOther y hy]
  intro sid' step' hlk hrun d hd
  rw [hstat d]
  exact hInv sid' step' hlk (by rw [← hstat sid']; exact hrun) d hd

/-- Moving one non-terminal runtime to any non-`RUNNING` status preserves
the running-dependencies invariant. -/
theorem depsInv_update_nonterminal (wf : List (String × Step))
    (stF stF' : String → StepRuntime) (sid : String)
    (hInv : DepsOfRunningTerminal wf stF)
    (hOther : ∀ x, x ≠ sid → stF' x = stF x)
    (hNotRun : (stF' sid).status ≠ .running)
    (hOldNotTerm : terminalSuccess (stF sid).status = false) :
    DepsOfRunningTerminal wf stF' := by
  intro sid' step' hlk hrun d hd
  by_cases hs : sid' = sid
  · subst hs; exact absurd hrun hNotRun
  · have hrun' : (stF sid').status = .running := by
      rw [← hOther sid' hs]; exact hrun
    have hterm := hInv sid' step' hlk hrun' d hd
    by_cases hdd : d = sid
    · subst hdd
      rw [hOldNotTerm] at hterm
      cases hterm
    · rw [hOther d hdd]
      exact hterm

/-- Moving one runtime to a terminal-successful status preserves the
running-dependencies invariant. -/
theorem depsInv_update_terminal (wf : List (String × Step))
    (stF stF' : String → StepRuntime) (sid : String)
    (hInv : DepsOfRunningTerminal wf stF)
    (hOther : ∀ x, x ≠ sid → stF' x = stF x)
    (hTerm : terminalSuccess (stF' sid).status = true) :
    DepsOfRunningTerminal wf stF' := by
  intro sid' step' hlk hrun d hd
  by_cases hs : sid' = sid
  · subst hs
    rw [hrun] at hTerm
    cases hTerm
  · have hrun' : (stF sid').status = .running := by
      rw [← hOther sid' hs]; exact hrun
    by_cases hdd : d = sid
    · subst hdd; exact hTerm
    · rw [hOther d hdd]
      exact hInv sid' step' hlk hrun' d hd

/-- Launching a pending step whose dependencies are all terminal preserves
the running-dependencies invariant. -/
theorem depsInv_update_running (wf : List (String × Step))
    (stF stF' : String → StepRuntime) (sid : String) (step : Step)
    (hInv : DepsOfRunningTerminal wf stF)
    (hOther : ∀ x, x ≠ sid → stF' x = stF x)
    (hlk : wf.lookup sid = some step)
    (hPend : (stF sid).status = .pending)
    (hNeeds : needsSatisfied stF step = true) :
    DepsOfRunningTerminal wf stF' := by
  intro sid' step' hlk' hrun d hd
  by_cases hs : sid' = sid
  · have hstep : step' = step := by
      rw [hs, hlk] at hlk'
      injection hlk' with h1
      exact h1.symm
    rw [hstep] at hd
    have hterm : terminalSuccess (stF d).status = true := by
      unfold needsSatisfied at hNeeds
      exact List.all_eq_true.mp hNeeds d hd
    by_cases hdd : d = sid
    · rw [hdd, hPend] at hterm
      cases hterm
    · rw [hOther d hdd]
      exact hterm
  · have hrun' : (stF sid').status = .running := by
      rw [← hOther sid' hs]; exact hrun
    have hterm := hInv sid' step' hlk' hrun' d hd
    by_cases hdd : d = sid
    · rw [hdd, hPend] at hterm
      cases hterm
    · rw [hOther d hdd]
      exact hterm

/-- Loop-back preserves the running-dependencies invariant: every
dependent of a reset step is itself reset (to `PENDING`), and the source
was not terminal. -/
theorem depsInv_handleLoopBack (wf : List (String × Step)) (st : OrchState)
    (fromStep toStep : String)
    (hInv : DepsOfRunningTerminal wf st.steps)
    (hFromNotTerm : terminalSuccess (st.steps fromStep).status = false) :
    DepsOfRunningTerminal wf (handleLoopBack wf st fromStep toStep).steps := by
  by_cases hto : (wf.lookup toStep).isNone = true
  · have : handleLoopBack wf st fromStep toStep = st := by
      unfold handleLoopBack
      rw [if_pos hto]
    rw [this]
    exact hInv
  · have hto' : (wf.lookup toStep).isNone = false := by
      cases h : (wf.lookup toStep).isNone with
      | false => rfl
      | true => exact absurd h hto
    have hfromPend :
        ((handleLoopBack wf st fromStep toStep).steps fromStep).status = .pending := by
      simp [handleLoopBack, hto', OrchState.setRt]
    have hresetPend : ∀ x, x ≠ fromStep → x ∈ resetTargets wf toStep →
        ((handleLoopBack wf st fromStep toStep).steps x).status = .pending := by
      intro x hxf hxt
      by_cases hxx : x = toStep
      · subst hxx
        simp [handleLoopBack, hto', OrchState.setRt, hxf, hxt, freshRuntime]
      · simp [handleLoopBack, hto', OrchState.setRt, hxf, hxt, hxx, freshRuntime]
    have hunch : ∀ x, x ≠ fromStep → x ∉ resetTargets wf toStep →
        (handleLoopBack wf st fromStep toStep).steps x = st.steps x := by
      intro x hxf hxt
      simp [handleLoopBack, hto', OrchState.setRt, hxf, hxt]
    intro sid' step' hlk hrun d hd
    by_cases hsf : sid' = fromStep
    · subst hsf
      rw [hfromPend] at hrun
      cases hrun
    · by_cases hsT : sid' ∈ resetTargets wf toStep
      · rw [hresetPend sid' hsf hsT] at hrun
        cases hrun
      · have hrun' : (st.steps sid').status = .running := by
          rw [← hunch sid' hsf hsT]; exact hrun
        have hterm := hInv sid' step' hlk hrun' d hd
        by_cases hdf : d = fromStep
        · subst hdf
          rw [hFromNotTerm] at hterm
          cases hterm
        · by_cases hdT : d ∈ resetTargets wf toStep
          · exact absurd
              (resetTargets_closed wf toStep (sid', step') (lookup_mem hlk) ⟨d, hd, hdT⟩)
              hsT
          · rw [hunch d hdf hdT]
            exact hterm

/-- The loop-back handler never touches the process bookkeeping. -/
theorem handleLoopBack_active (wf : List (String × Step)) (st : OrchState)
    (fromStep toStep : String) :
    (handleLoopBack wf st fromStep toStep).active = st.active ∧
    (handleLoopBack wf st fromStep toStep).toFinalize = st.toFinalize := by
  unfold handleLoopBack
  split <;> exact ⟨rfl, rfl⟩

/-- Status-preserving point updates keep the auxiliary invariant. -/
theorem auxInv_setRt_samestatus (st : OrchState) (sid : String) (rt1 : StepRuntime)
    (hAux : ActiveStatusInv st)
    (hSame : rt1.status = (st.steps sid).status) :
    ActiveStatusInv (st.setRt sid rt1) := by
  obtain ⟨h1, h2, h3, h4⟩ := hAux
  refine ⟨?_, h2, h3, h4⟩
  intro x hxa hxf
  simp only [OrchState.setRt]
  by_cases hx : x = sid
  · rw [if_pos hx, hSame, ← hx]
    exact h1 x hxa hxf
  · rw [if_neg hx]
    exact h1 x hxa hxf

/-- Updating a step outside the active map keeps the auxiliary
invariant. -/
theorem auxInv_setRt_notactive (st : OrchState) (sid : String) (rt1 : StepRuntime)
    (hAux : ActiveStatusInv st) (hNotA : sid ∉ st.active) :
    ActiveStatusInv (st.setRt sid rt1) := by
  obtain ⟨h1, h2, h3, h4⟩ := hAux
  refine ⟨?_, h2, h3, h4⟩
  intro x hxa hxf
  have hx : x ≠ sid := fun h => hNotA (h ▸ hxa)
  simp only [OrchState.setRt]
  rw [if_neg hx]
  exact h1 x hxa hxf

/-- Marking an active, unmarked step for finalization keeps the auxiliary
invariant (the marked step is exempted from the status constraint). -/
theorem auxInv_mark (st : OrchState) (sid : String)
    (hAux : ActiveStatusInv st) (hActive : sid ∈ st.active)
    (hNotFin : sid ∉ st.toFinalize) :
    ActiveStatusInv (st.markFinalize sid) := by
  obtain ⟨h1, h2, h3, h4⟩ := hAux
  refine ⟨?_, ?_, h3, ?_⟩
  · intro x hxa hxf
    have hxf' : x ∉ st.toFinalize := fun h => hxf (List.mem_cons_of_mem _ h)
    exact h1 x hxa hxf'
  · intro x hx
    rcases List.mem_cons.mp hx with rfl | hx
    · exact hActive
    · exact h2 x hx
  · exact List.nodup_cons.mpr ⟨hNotFin, h4⟩

/-- Updating one runtime and marking it for finalization keeps the
auxiliary invariant. -/
theorem auxInv_mark_setRt (st : OrchState) (sid : String) (rt1 : StepRuntime)
    (hAux : ActiveStatusInv st) (hActive : sid ∈ st.active)
    (hNotFin : sid ∉ st.toFinalize) :
    ActiveStatusInv ((st.setRt sid rt1).markFinalize sid) := by
  obtain ⟨h1, h2, h3, h4⟩ := hAux
  refine ⟨?_, ?_, h3, ?_⟩
  · intro x hxa hxf
    have hxs : x ≠ sid := fun h => hxf (by rw [h]; exact List.mem_cons_self _ _)
    have hxf' : x ∉ st.toFinalize := fun h => hxf (List.mem_cons_of_mem _ h)
    simp only [OrchState.setRt, OrchState.markFinalize]
    rw [if_neg hxs]
    exact h1 x hxa hxf'
  · intro x hx
    rcases List.mem_cons.mp hx with rfl | hx
    · exact hActive
    · exact h2 x hx
  · exact List.nodup_cons.mpr ⟨hNotFin, h4⟩

/-- Loop-back keeps the auxiliary invariant: every status it touches
becomes `PENDING`. -/
theorem auxInv_handleLoopBack (wf : List (String × Step)) (st : OrchState)
    (fromStep toStep : String) (hAux : ActiveStatusInv st) :
    ActiveStatusInv (handleLoopBack wf st fromStep toStep) := by
  by_cases hto : (wf.lookup toStep).isNone = true
  · have heq : handleLoopBack wf st fromStep toStep = st := by
      unfold handleLoopBack
      rw [if_pos hto]
    rw [heq]
    exact hAux
  · have hto' : (wf.lookup toStep).isNone = false := by
      cases h : (wf.lookup toStep).isNone with
      | false => rfl
      | true => exact absurd h hto
    have hstat : ∀ x, ((handleLoopBack wf st fromStep toStep).steps x).status = .pending ∨
        (handleLoopBack wf st fromStep toStep).steps x = st.steps x := by
      intro x
      by_cases hxf : x = fromStep
      · left
        subst hxf
        simp [handleLoopBack, hto', OrchState.setRt]
      · by_cases hxt : x ∈ resetTargets wf toStep
        · left
          by_cases hxx : x = toStep
          · subst hxx
            simp [handleLoopBack, hto', OrchState.setRt, hxf, hxt, freshRuntime]
          · simp [handleLoopBack, hto', OrchState.setRt, hxf, hxt, hxx, freshRuntime]
        · right
          simp [handleLoopBack, hto', OrchState.setRt, hxf, hxt]
    obtain ⟨h1, h2, h3, h4⟩ := hAux
    obtain ⟨hact, hfin⟩ := handleLoopBack_active wf st fromStep toStep
    refine ⟨?_, ?_, ?_, ?_⟩
    · intro x hxa hxf
      rw [hact] at hxa
      rw [hfin] at hxf
      rcases hstat x with hp | he
      · exact Or.inr hp
      · rw [he]
        exact h1 x hxa hxf
    · intro x hx
      rw [hfin] at hx
      rw [hact]
      exact h2 x hx
    · rw [hact]; exact h3
    · rw [hfin]; exact h4

/-- Status-preserving point updates keep both invariants. -/
theorem good_setRt_samestatus (P : OrchParams) (st : OrchState) (sid : String)
    (rt1 : StepRuntime) (hG : GoodState P st)
    (hSame : rt1.status = (st.steps sid).status) :
    GoodState P (st.setRt sid rt1) :=
  ⟨depsInv_update_samestatus P.wf st.steps _ sid hG.1
      (fun x hx => by simp [OrchState.setRt, hx])
      (by simp [OrchState.setRt, hSame]),
   auxInv_setRt_samestatus st sid rt1 hG.2 hSame⟩

/-- Failing or completing an inactive pending step keeps both
invariants. -/
theorem good_setRt_notactive_nonrunning (P : OrchParams) (st : OrchState)
    (sid : String) (rt1 : StepRuntime) (hG : GoodState P st)
    (hNotA : sid ∉ st.active) (hNew : rt1.status ≠ .running)
    (hOldNotTerm : terminalSuccess (st.steps sid).status = false) :
    GoodState P (st.setRt sid rt1) :=
  ⟨depsInv_update_nonterminal P.wf st.steps _ sid hG.1
      (fun x hx => by simp [OrchState.setRt, hx])
      (by simpa [OrchState.setRt] using hNew) hOldNotTerm,
   auxInv_setRt_notactive st sid rt1 hG.2 hNotA⟩

/-- Completing an inactive step keeps both invariants. -/
theorem good_setRt_terminal_notactive (P : OrchParams) (st : OrchState)
    (sid : String) (rt1 : StepRuntime) (hG : GoodState P st)
    (hNotA : sid ∉ st.active) (hTerm : terminalSuccess rt1.status = true) :
    GoodState P (st.setRt sid rt1) :=
  ⟨depsInv_update_terminal P.wf st.steps _ sid hG.1
      (fun x hx => by simp [OrchState.setRt, hx])
      (by simpa [OrchState.setRt] using hTerm),
   auxInv_setRt_notactive st sid rt1 hG.2 hNotA⟩

/-- The launch effect — mark `RUNNING`, add to the active map — keeps both
invariants when the guards held. -/
theorem good_launched_state (P : OrchParams) (st : OrchState) (sid : String)
    (step : Step) (rt3 : StepRuntime) (hG : GoodState P st)
    (hlk : P.wf.lookup sid = some step) (hNotA : sid ∉ st.active)
    (hPend : (st.steps sid).status = .pending)
    (hNeeds : needsSatisfied st.steps step = true)
    (hRun : rt3.status = .running) :
    GoodState P { st.setRt sid rt3 with active := sid :: st.active } := by
  constructor
  · exact depsInv_update_running P.wf st.steps _ sid step hG.1
      (fun x hx => by simp [OrchState.setRt, hx]) hlk hPend hNeeds
  · obtain ⟨h1, h2, h3, h4⟩ := hG.2
    refine ⟨?_, ?_, ?_, h4⟩
    · intro x hxa hxf
      rcases List.mem_cons.mp hxa with rfl | hxa
      · left
        simpa [OrchState.setRt] using hRun
      · have hx : x ≠ sid := fun h => hNotA (h ▸ hxa)
        simp only [OrchState.setRt]
        rw [if_neg hx]
        exact h1 x hxa hxf
    · intro x hx
      exact List.mem_cons_of_mem _ (h2 x hx)
    · exact List.nodup_cons.mpr ⟨hNotA, h3⟩

/-- The collect effect — update a collected step to a non-running status
and mark it for finalization — keeps both invariants. -/
theorem good_mark_setRt (P : OrchParams) (st : OrchState) (sid : String)
    (rt1 : StepRuntime) (hG : GoodState P st) (hActive : sid ∈ st.active)
    (hNotFin : sid ∉ st.toFinalize) (hNotRun : rt1.status ≠ .running) :
    GoodState P ((st.setRt sid rt1).markFinalize sid) := by
  constructor
  · have hOld : terminalSuccess (st.steps sid).status = false := by
      rcases hG.2.1 sid hActive hNotFin with h | h <;> rw [h] <;> rfl
    exact depsInv_update_nonterminal P.wf st.steps _ sid hG.1
      (fun x hx => by simp [OrchState.setRt, OrchState.markFinalize, hx])
      (by simpa [OrchState.setRt, OrchState.markFinalize] using hNotRun) hOld
  · exact auxInv_mark_setRt st sid rt1 hG.2 hActive hNotFin

/-- The loop-back collect effect keeps both invariants. -/
theorem good_loopback_mark (P : OrchParams) (st : OrchState) (sid : String)
    (rt1 : StepRuntime) (target : String) (hG : GoodState P st)
    (hActive : sid ∈ st.active) (hNotFin : sid ∉ st.toFinalize)
    (hSame : rt1.status = (st.steps sid).status) :
    GoodState P ((handleLoopBack P.wf (st.setRt sid rt1) sid target).markFinalize sid) := by
  have hG1 : GoodState P (st.setRt sid rt1) :=
    good_setRt_samestatus P st sid rt1 hG hSame
  have hNotTerm : terminalSuccess ((st.setRt sid rt1).steps sid).status = false := by
    have h := hG.2.1 sid hActive hNotFin
    have hs : ((st.setRt sid rt1).steps sid).status = (st.steps sid).status := by
      simp [OrchState.setRt, hSame]
    rw [hs]
    rcases h with h | h <;> rw [h] <;> rfl
  have hMain := depsInv_handleLoopBack P.wf (st.setRt sid rt1) sid target hG1.1 hNotTerm
  have hAux2 := auxInv_handleLoopBack P.wf (st.setRt sid rt1) sid target hG1.2
  obtain ⟨hact, hfin⟩ := handleLoopBack_active P.wf (st.setRt sid rt1) sid target
  constructor
  · exact hMain
  · refine auxInv_mark _ sid hAux2 ?_ ?_
    · rw [hact]; exact hActive
    · rw [hfin]; exact hNotFin

/-- A launch-phase iteration preserves both invariants. -/
theorem good_launch (P : OrchParams) (st : OrchState) (sid : String) (step : Step)
    (lenv : LaunchEnv) (hlk : P.wf.lookup sid = some step) (hid : step.id = sid)
    (hG : GoodState P st) : GoodState P (launchPhaseStep P lenv st sid step).1 := by
  have hDepPres := dependenciesSatisfiedStep_preserves st.steps step
  simp only [launchPhaseStep]
  split
  next hns => exact hG
  next hns =>
  have hPend : (st.steps sid).status = .pending := not_not.mp hns
  split
  next hact => exact hG
  next hact =>
  have hNotA : sid ∉ st.active := by simpa using hact
  split
  next hdep => exact hG
  next hdep =>
  have hDeps : (dependenciesSatisfiedStep st.steps step).1 = true := by
    cases hb : (dependenciesSatisfiedStep st.steps step).1 with
    | true => rfl
    | false => exact absurd (by simp [hb]) hdep
  have hsame1 : ((dependenciesSatisfiedStep st.steps step).2).status
      = (st.steps sid).status := by
    rw [hDepPres.2, hid]
  have hG1 : GoodState P (st.setRt sid (dependenciesSatisfiedStep st.steps step).2) :=
    good_setRt_samestatus P st sid _ hG hsame1
  split
  next hg => exact hG1
  next hg =>
  split
  next u heq => exact hG1
  next ready rt2 heq =>
  have hPres2 := initializeLoopItems_preserves lenv.artifactJson P.repoDir
    (st.setRt sid (dependenciesSatisfiedStep st.steps step).2).steps step
    (dependenciesSatisfiedStep st.steps step).2 ready rt2 heq
  have hsame2 : rt2.status
      = ((st.setRt sid (dependenciesSatisfiedStep st.steps step).2).steps sid).status := by
    rw [hPres2.2]
    simp [OrchState.setRt]
  have hG2 : GoodState P
      ((st.setRt sid (dependenciesSatisfiedStep st.steps step).2).setRt sid rt2) :=
    good_setRt_samestatus P _ sid rt2 hG1 hsame2
  have hPend2 :
      (((st.setRt sid (dependenciesSatisfiedStep st.steps step).2).setRt sid rt2).steps
        sid).status = .pending := by
    simp [OrchState.setRt, hPres2.2, hDepPres.2, hid, hPend]
  split
  next hnr => exact hG2
  next hnr =>
  split
  next hdone => exact good_setRt_terminal_notactive P _ sid _ hG2 hNotA rfl
  next hdone =>
  split
  next hpr => exact hG2
  next hpr =>
  split
  next heq2 => exact hG2
  next depEnv heq2 =>
  split
  next hok =>
    refine good_launched_state P _ sid step _ hG2 hlk hNotA hPend2 ?_ rfl
    refine needsSatisfied_of_samestatus st.steps _ step ?_ (depsSat_true_needs _ _ hDeps)
    intro x
    by_cases hx : x = sid
    · subst hx
      simp [OrchState.setRt, hPres2.2, hDepPres.2, hid]
    · simp [OrchState.setRt, hx]
  next hok =>
    refine good_setRt_notactive_nonrunning P _ sid _ hG2 hNotA (by simp) ?_
    rw [hPend2]
    rfl

/-- The ingest tail of a collect-phase iteration preserves both
invariants. -/
theorem good_collectIngest (P : OrchParams) (cenv : CollectEnv) (st : OrchState)
    (sid : String) (step : Step) (report : RunReport) (rt1 : StepRuntime)
    (hG : GoodState P st) (hActive : sid ∈ st.active)
    (hNotFin : sid ∉ st.toFinalize) :
    GoodState P (collectIngest P cenv st sid step report rt1) := by
  unfold collectIngest
  split
  · split
    · exact good_mark_setRt P st sid _ hG hActive hNotFin (by simp)
    · split
      · refine good_mark_setRt P st sid _ hG hActive hNotFin ?_
        rw [(applyNotify_status cenv.notifyOk _).2]
        simp
      · exact good_mark_setRt P st sid _ hG hActive hNotFin (by simp)
  · refine good_mark_setRt P st sid _ hG hActive hNotFin ?_
    rw [(applyNotify_status cenv.notifyOk _).1]
    simp

/-- A collect-phase iteration preserves both invariants. -/
theorem good_collect (P : OrchParams) (st : OrchState) (sid : String) (step : Step)
    (cenv : CollectEnv) (hActive : sid ∈ st.active) (hNotFin : sid ∉ st.toFinalize)
    (hG : GoodState P st) :
    GoodState P (collectPhaseStep P cenv st sid step) := by
  simp only [collectPhaseStep]
  split
  · split
    next msg heq =>
      split
      · exact hG
      · refine good_mark_setRt P st sid _ hG hActive hNotFin ?_
        rw [(applyNotify_status cenv.notifyOk _).1]
        simp
    next report heq =>
      split
      · split
        next target heqlb =>
          split
          · exact good_loopback_mark P st sid _ target hG hActive hNotFin rfl
          · refine good_mark_setRt P st sid _ hG hActive hNotFin ?_
            rw [(applyNotify_status cenv.notifyOk _).1]
            simp
        next heqlb =>
          exact good_collectIngest P cenv st sid step report _ hG hActive hNotFin
      · exact good_collectIngest P cenv st sid step report _ hG hActive hNotFin
  · split
    · refine good_mark_setRt P st sid _ hG hActive hNotFin ?_
      rw [(applyNotify_status cenv.notifyOk _).1]
      simp
    · exact hG

/-- Finalization preserves both invariants. -/
theorem good_finalize (P : OrchParams) (st : OrchState) (sid : String)
    (hG : GoodState P st) :
    GoodState P (finalizeStep P.maxAttempts st sid) := by
  obtain ⟨hInv, h1, h2, h3, h4⟩ := hG
  unfold finalizeStep
  constructor
  · by_cases hc : (st.steps sid).status = .failed ∧
        ((st.steps sid).attempts : Int) < P.maxAttempts
    · refine depsInv_update_nonterminal P.wf st.steps _ sid hInv ?_ ?_ ?_
      · intro x hx
        simp [hx]
      · simp [hc]
      · rw [hc.1]
        rfl
    · refine depsInv_update_samestatus P.wf st.steps _ sid hInv ?_ ?_
      · intro x hx
        simp [hx]
      · simp [hc]
  · refine ⟨?_, ?_, ?_, ?_⟩
    · intro x hxa hxf
      have hxp := (List.Nodup.mem_erase_iff h3).mp hxa
      have hxf' : x ∉ st.toFinalize := fun h =>
        hxf ((List.mem_erase_of_ne hxp.1).mpr h)
      have hold := h1 x hxp.2 hxf'
      simpa [hxp.1] using hold
    · intro x hx
      have hxp := (List.Nodup.mem_erase_iff h4).mp hx
      exact (List.mem_erase_of_ne hxp.1).mpr (h2 x hxp.2)
    · exact h3.erase _
    · exact h4.erase _

/-- A manual-input check preserves both invariants. -/
theorem good_manual (P : OrchParams) (st : OrchState) (sid : String)
    (manualFileExists : Bool) (now : String) (hG : GoodState P st) :
    GoodState P (checkManualStep P manualFileExists now st sid) := by
  simp only [checkManualStep]
  split
  · exact hG
  · split
    next hw => exact hG
    next hw =>
      have hWait : (st.steps sid).status = .waitingOnHuman := not_not.mp hw
      split
      · exact hG
      · split
        · constructor
          · exact depsInv_update_terminal P.wf st.steps _ sid hG.1
              (fun x hx => by simp [OrchState.setRt, hx])
              (by simp [OrchState.setRt, terminalSuccess])
          · obtain ⟨h1, h2, h3, h4⟩ := hG.2
            refine ⟨?_, h2, h3, h4⟩
            intro x hxa hxf
            by_cases hx : x = sid
            · subst hx
              have hh := h1 x hxa hxf
              rw [hWait] at hh
              rcases hh with h | h <;> cases h
            · simp only [OrchState.setRt]
              rw [if_neg hx]
              exact h1 x hxa hxf
        · exact hG

/-- The initial state satisfies both invariants. -/
theorem good_init (P : OrchParams) : GoodState P initialState := by
  refine ⟨?_, ?_, ?_, ?_, ?_⟩
  · intro sid step hlk hrun d hd
    simp [initialState, freshRuntime] at hrun
  · intro x hxa _
    exact absurd hxa (List.not_mem_nil x)
  · intro x hx
    exact absurd hx (List.not_mem_nil x)
  · exact List.nodup_nil
  · exact List.nodup_nil

/-- Every scheduler transition preserves both invariants. -/
theorem good_preserved {P : OrchParams} {st st1 : OrchState}
    (hG : GoodState P st) (ht : OrchTrans P st st1) : GoodState P st1 := by
  cases ht with
  | launch sidx stepx lenvx hlk hid =>
      exact good_launch P st sidx stepx lenvx hlk hid hG
  | collect sidx stepx cenvx hlk hact hfin =>
      exact good_collect P st sidx stepx cenvx (by simpa using hact)
        (by simpa using hfin) hG
  | finalize sidx hfin =>
      exact good_finalize P st sidx hG
  | manual sidx ex now =>
      exact good_manual P st sidx ex now hG

/-- The launched outcome only arises behind the dependency guard. -/
theorem launched_needsSatisfied (P : OrchParams) (lenv : LaunchEnv)
    (st0 : OrchState) (sid : String) (step : Step)
    (extraEnv : List (String × String))
    (h : (launchPhaseStep P lenv st0 sid step).2 = .launched extraEnv) :
    needsSatisfied st0.steps step = true := by
  simp only [launchPhaseStep] at h
  split at h
  next => simp at h
  next =>
  split at h
  next => simp at h
  next =>
  split at h
  next hdep => simp at h
  next hdep =>
  split at h
  next => simp at h
  next =>
  split at h
  next u heq => simp at h
  next ready rt2 heq =>
  split at h
  next => simp at h
  next =>
  split at h
  next => simp at h
  next =>
  split at h
  next => simp at h
  next =>
  split at h
  next heq2 => simp at h
  next depEnv heq2 =>
  split at h
  next hok =>
    have hDeps : (dependenciesSatisfiedStep st0.steps step).1 = true := by
      cases hb : (dependenciesSatisfiedStep st0.steps step).1 with
      | true => rfl
      | false => exact absurd (by simp [hb]) hdep
    exact depsSat_true_needs _ _ hDeps
  next hok => simp at h

/-- C6: in every scheduler-reachable state, no `RUNNING` step has a
dependency outside `{COMPLETED, SKIPPED}` (equivalently, none in
`{PENDING, RUNNING, FAILED, WAITING_ON_HUMAN}`), and a step is launched —
its dependency artifacts exported as the launch `extra_env` — only when
the dependency check held. -/
theorem c6_running_deps_terminal (P : OrchParams) (st : OrchState)
    (hReach : Reachable P st) :
    DepsOfRunningTerminal P.wf st.steps ∧
    (∀ sid step, P.wf.lookup sid = some step → (st.steps sid).status = .running →
      ∀ d ∈ step.needs, (st.steps d).status ≠ .pending ∧
        (st.steps d).status ≠ .running ∧ (st.steps d).status ≠ .failed ∧
        (st.steps d).status ≠ .waitingOnHuman) ∧
    (∀ (st0 : OrchState) (sid : String) (step : Step) (lenv : LaunchEnv)
        (extraEnv : List (String × String)),
      (launchPhaseStep P lenv st0 sid step).2 = .launched extraEnv →
      needsSatisfied st0.steps step = true) := by
  have hGood : GoodState P st := by
    induction hReach with
    | init => exact good_init P
    | step hR ht ih => exact good_preserved ih ht
  refine ⟨hGood.1, ?_, ?_⟩
  · intro sid step hlk hrun d hd
    have hterm := hGood.1 sid step hlk hrun d hd
    refine ⟨fun he => ?_, fun he => ?_, fun he => ?_, fun he => ?_⟩ <;>
      (rw [he] at hterm; simp [terminalSuccess] at hterm)
  · intro st0 sid step lenv extraEnv hl
    exact launched_needsSatisfied P lenv st0 sid step extraEnv hl

/-- Witness for C6 at the initial state of the one-step workflow. -/
theorem c6_witness :
    DepsOfRunningTerminal c8Params.wf initialState.steps ∧
    (∀ sid step, c8Params.wf.lookup sid = some step →
      (initialState.steps sid).status = .running →
      ∀ d ∈ step.needs, (initialState.steps d).status ≠ .pending ∧
        (initialState.steps d).status ≠ .running ∧
        (initialState.steps d).status ≠ .failed ∧
        (initialState.steps d).status ≠ .waitingOnHuman) ∧
    (∀ (st0 : OrchState) (sid : String) (step : Step) (lenv : LaunchEnv)
        (extraEnv : List (String × String)),
      (launchPhaseStep c8Params lenv st0 sid step).2 = .launched extraEnv →
      needsSatisfied st0.steps step = true) :=
  c6_running_deps_terminal c8Params initialState Reachable.init

end AgentOrch
